import Mathlib

/-!
Verification of the outline reconciliation subsystem
(src/addons/frontend/src/outline.ts) of typst-preview.

Shallow embedding conventions:
* DOM elements become the inductive `DomNode` (tag name, class list,
  attribute association list, text content, child elements).  Only element
  nodes are modelled; `textContent` is a field.
* The mutable `GenContext` of the source becomes an explicit state record
  `GenContext`.  The source's element pointers `insertionPoint`, `parent`
  and `lastVisit` always point to a node on the rightmost spine of the tree
  under construction (every mutation of the tree appends a child at the end
  of such a node), so they are represented by their depth along the
  rightmost spine (0 = the root).
* `GenElem.children` (the `GenNode` bookkeeping array of the source) is
  written by `push`/`pushCanvas` but never read anywhere in the source, so
  only the DOM `container` side is modelled.
* Inserter callbacks stored on page records are one of exactly two source
  functions; they are modelled by the enumeration `InserterKind`, and
  invocation by `runInserter`.
* Fallible operations (DOM exceptions, `throw new Error`) return
  `Except String`.
* The collaborators imported from ./svg-patch (`equalPatchElem`,
  `patchAttributes`, `interpretTargetView`, `changeViewPerspective`) are not
  part of this source tree; the reconciliation functions are parametrized
  over them, and spec-modelled instances are provided where a claim needs a
  concrete collaborator.
-/

/-- A DOM element: tag name, class list, attributes, text content, children.
Attribute order follows insertion order of setAttribute calls. -/
inductive DomNode where
  | mk (tag : String) (classes : List String) (attrs : List (String × String))
       (text : Option String) (children : List DomNode)

mutual

def DomNode.beq : DomNode → DomNode → Bool
  | .mk t c a x cs, .mk t' c' a' x' cs' =>
      t == t' && c == c' && a == a' && x == x' && DomNode.beqList cs cs'

def DomNode.beqList : List DomNode → List DomNode → Bool
  | [], [] => true
  | c :: cs, c' :: cs' => DomNode.beq c c' && DomNode.beqList cs cs'
  | _, _ => false

end

mutual

theorem DomNode.beq_iff : ∀ (a b : DomNode), DomNode.beq a b = true ↔ a = b
  | .mk t c a x cs, .mk t' c' a' x' cs' => by
    rw [DomNode.beq]
    simp only [Bool.and_eq_true, beq_iff_eq, DomNode.beqList_iff cs cs',
      DomNode.mk.injEq]
    tauto

theorem DomNode.beqList_iff :
    ∀ (l l' : List DomNode), DomNode.beqList l l' = true ↔ l = l'
  | [], [] => by simp [DomNode.beqList]
  | [], _ :: _ => by simp [DomNode.beqList]
  | _ :: _, [] => by simp [DomNode.beqList]
  | c :: cs, c' :: cs' => by
    rw [DomNode.beqList]
    simp [DomNode.beq_iff c c', DomNode.beqList_iff cs cs']

end

instance : DecidableEq DomNode :=
  fun a b => decidable_of_iff _ (DomNode.beq_iff a b)

namespace DomNode

def tag : DomNode → String
  | .mk t _ _ _ _ => t

def classes : DomNode → List String
  | .mk _ c _ _ _ => c

def attrs : DomNode → List (String × String)
  | .mk _ _ a _ _ => a

def text : DomNode → Option String
  | .mk _ _ _ x _ => x

def children : DomNode → List DomNode
  | .mk _ _ _ _ cs => cs

/-- getAttribute: first binding of the key, none when absent. -/
def getAttr (n : DomNode) (k : String) : Option String :=
  (n.attrs.find? (fun p => p.1 = k)).map (·.2)

/-- setAttribute: replace any existing binding of the key, else append. -/
def setAttr : DomNode → String → String → DomNode
  | .mk t c a x cs, k, v =>
      .mk t c (if (a.find? (fun p => p.1 = k)).isSome
               then a.map (fun p => if p.1 = k then (k, v) else p)
               else a ++ [(k, v)]) x cs

/-- removeAttribute. -/
def removeAttr : DomNode → String → DomNode
  | .mk t c a x cs, k => .mk t c (a.filter (fun p => ¬ p.1 = k)) x cs

/-- classList.add. -/
def addClass : DomNode → String → DomNode
  | .mk t c a x cs, cl => .mk t (c ++ [cl]) a x cs

/-- classList.contains. -/
def hasClass (n : DomNode) (cl : String) : Bool :=
  n.classes.contains cl

/-- firstElementChild (all modelled children are elements). -/
def firstElementChild (n : DomNode) : Option DomNode :=
  n.children.head?

/-- Set the textContent field. -/
def setText : DomNode → String → DomNode
  | .mk t c a _ cs, x => .mk t c a (some x) cs

/-- Replace the whole child list. -/
def withChildren : DomNode → List DomNode → DomNode
  | .mk t c a x _, cs => .mk t c a x cs

/-- document.createElement. -/
def createElement (t : String) : DomNode := .mk t [] [] none []

/-- Append one child at the end of the node reached by following the last
child `d` times from `n` (the rightmost spine).  When the spine is shorter
than `d` the child is appended at the deepest available node; this case is
never reached by the generator, which only uses valid spine depths. -/
def appendAt : DomNode → Nat → DomNode → DomNode
  | .mk t c a x cs, 0, ch => .mk t c a x (cs ++ [ch])
  | .mk t c a x cs, d + 1, ch =>
      match cs.getLast? with
      | none => .mk t c a x [ch]
      | some last => .mk t c a x (cs.dropLast ++ [appendAt last d ch])

end DomNode

/-- Attribute keys used by the external ./svg-patch module.  Modelled from
the spec: identity tag, reuse-source tag, and the always-repatch flag; only
their mutual distinctness (and distinctness from the data attributes set in
outline.ts) matters. -/
def TypstPatchAttrs.Tid : String := "data-tid"

def TypstPatchAttrs.ReuseFrom : String := "data-reuse-from"

def TypstPatchAttrs.BadEquality : String := "data-bad-equality"

/-- The two inserter callbacks that the source ever stores on a page record
(`replaceStubToRealCanvas` and `poisionCanvasMoved`), as a deep embedding of
the callback slot. -/
inductive InserterKind where
  | replaceStubToRealCanvas
  | poisionCanvasMoved
deriving DecidableEq

/-- CanvasPage: index, geometry, container, current rendered element, and the
patching extras inserter/stub.  `elem` is an Option because the source casts
a possibly-null firstElementChild into it. -/
structure CanvasPage where
  index : Nat
  width : Nat
  height : Nat
  container : DomNode
  elem : Option DomNode
  inserter : Option InserterKind
  stub : Option DomNode
deriving DecidableEq

mutual

/-- Replace the first node (pre-order) equal to `target` with `repl`;
structural equality models DOM reference identity. -/
def replaceNode : DomNode → DomNode → DomNode → DomNode
  | n, target, repl =>
    if n = target then repl else
      match n with
      | .mk t c a x cs => .mk t c a x (replaceNodeList cs target repl)

def replaceNodeList : List DomNode → DomNode → DomNode → List DomNode
  | [], _, _ => []
  | c :: cs, target, repl =>
      let c' := replaceNode c target repl
      if c' = c then c :: replaceNodeList cs target repl else c' :: cs

end

/-- Invoke an inserter callback on a page record, with the host tree the
stub currently lives in.  `poisionCanvasMoved` always throws (source lines
57-60).  `replaceStubToRealCanvas` (source lines 62-66) dereferences
`t.stub!`: when the stub is already cleared this is a TypeError, otherwise
the stub is replaced by the record's container in the host tree and the stub
field is cleared. -/
def runInserter : InserterKind → CanvasPage → DomNode → Except String (CanvasPage × DomNode)
  | .poisionCanvasMoved, _, _ => .error "never called moved canvas"
  | .replaceStubToRealCanvas, t, host =>
      match t.stub with
      | none => .error "TypeError: t.stub is undefined"
      | some st => .ok ({ t with stub := none }, replaceNode host st t.container)

/-- tagPatchId (source lines 51-55). -/
def tagPatchId (elem : DomNode) (tid : String) : DomNode :=
  ((elem.setAttr TypstPatchAttrs.Tid tid).setAttr
      TypstPatchAttrs.ReuseFrom tid).setAttr TypstPatchAttrs.BadEquality "1"

/-- The stub element built by GenElem.pushCanvas (source lines 39-44). -/
def stubElem (index : Nat) : DomNode :=
  ((DomNode.createElement "div").setAttr TypstPatchAttrs.Tid
      ("canvas:" ++ toString index)).setAttr "data-page-number" (toString index)

/-- Cursor position carried by an outline item (interface CursorPosition).
Only page_no is ever read by this subsystem; x and y are carried along. -/
structure CursorPosition where
  page_no : Nat
  x : Int
  y : Int
deriving DecidableEq

/-- Outline item input data (interface OutlineItemData). -/
inductive OutlineItemData where
  | mk (title : String) (position : Option CursorPosition)
       (children : List OutlineItemData)

def OutlineItemData.title : OutlineItemData → String
  | .mk t _ _ => t

def OutlineItemData.position : OutlineItemData → Option CursorPosition
  | .mk _ p _ => p

def OutlineItemData.children : OutlineItemData → List OutlineItemData
  | .mk _ _ cs => cs

/-- Generation context (class GenContext, source lines 68-140).  The root
field is the DOM container of the root GenElem built in the constructor;
insertionPoint, parent and lastVisit are the source's element pointers,
represented as depths along the rightmost spine of root (see the header
comment). -/
structure GenContext where
  pages : List CanvasPage
  populateCnt : Nat
  root : DomNode
  insertionPoint : Nat
  parent : Nat
  lastVisit : Option Nat

/-- GenContext constructor (source lines 74-77). -/
def GenContext.init (pages : List CanvasPage) : GenContext :=
  { pages := pages
    populateCnt := 1
    root := DomNode.createElement "div"
    insertionPoint := 0
    parent := 0
    lastVisit := none }

/-- GenElem.pushCanvas for the page at 0-based registry slot `k`, appending
the stub at spine depth `d` (source lines 39-48): build the stub element
from the page's index, store it in the record's stub field, and append it to
the container.  The write-only GenNode bookkeeping list is not modelled. -/
def pushCanvas (s : GenContext) (d : Nat) (k : Nat) : GenContext :=
  match s.pages[k]? with
  | none => s
  | some pg =>
      let stub := stubElem pg.index
      { s with
        pages := s.pages.set k { pg with stub := some stub }
        root := s.root.appendAt d stub }

/-- The loop of GenContext.spliceCanvas (source lines 82-84): push the pages
at 1-based positions i, i+1, ..., until-1 (registry slots i-1, ...). -/
def spliceLoop (d : Nat) : Nat → Nat → GenContext → GenContext
  | i, until_, s =>
    if i < until_ then spliceLoop d (i + 1) until_ (pushCanvas s d (i - 1))
    else s
termination_by i until_ _ => until_ - i

/-- GenContext.spliceCanvas (source lines 79-86): populate canvas stubs from
populateCnt up to `until_` (exclusive), clamped to pages.length + 1, into
the node at spine depth `d`; then raise the watermark. -/
def spliceCanvas (s : GenContext) (d : Nat) (until_ : Nat) : GenContext :=
  let until' := min until_ (s.pages.length + 1)
  let s' := spliceLoop d s.populateCnt until' s
  { s' with populateCnt := max until' s'.populateCnt }

/-- The outline container div with its title span, as first constructed by
GenContext.generate (source lines 92-109): the div gets class
typst-outline, a data-title attribute and the patch identity tags; the span
gets its classes, the title text and the patch identity tags, and is pushed
as the first child.  `hasChildren` only drives presentation styling
(underline, cursor, click handler, source lines 128-136), which is not
modelled; it is computed from data available before the children loop. -/
def outlineDivWithTitle (title : String) (level : Nat) : DomNode :=
  let outlineDiv := tagPatchId
    (((DomNode.createElement "div").addClass "typst-outline").setAttr
      "data-title" title)
    ("outline:" ++ title)
  let titleSpan := tagPatchId
    (((((DomNode.createElement "span").addClass
        "typst-outline-title").addClass
        ("level-" ++ toString level)).setText title))
    ("title:" ++ title)
  outlineDiv.withChildren [titleSpan]

mutual

/-- GenContext.generate (source lines 89-139).  Returns the updated context
and the spine depth of the generated outline node at the moment it was
appended (the source returns the node itself).  The saved/restored
insertionPoint is written back verbatim even though every caller overwrites
it immediately, mirroring the source.  The presentation-only hasChildren
styling is not modelled. -/
def generate (item : OutlineItemData) (level : Nat) (s : GenContext) :
    GenContext × Nat :=
  match item with
  | .mk title position children =>
    let pos := (position.map (·.page_no)).getD 0
    let s1 := spliceCanvas s s.insertionPoint pos
    let dNode := s1.parent + 1
    let s2 := { s1 with
      root := s1.root.appendAt s1.parent (outlineDivWithTitle title level)
      lastVisit := some dNode }
    let savedParent := s2.parent
    let savedInsertionPoint := s2.insertionPoint
    let s3 := { s2 with parent := dNode, insertionPoint := dNode }
    let s4 := generateChildren children (level + 1) s3
    let s5 := { s4 with
      parent := savedParent, insertionPoint := savedInsertionPoint }
    (s5, dNode)

/-- The children loop of generate (source lines 121-123): each child is
generated and becomes the new insertionPoint. -/
def generateChildren (items : List OutlineItemData) (level : Nat)
    (s : GenContext) : GenContext :=
  match items with
  | [] => s
  | ch :: rest =>
      let (s', d) := generate ch level s
      generateChildren rest level { s' with insertionPoint := d }

end

/-- The top-level items loop of patchOutlineEntry (source lines 150-152). -/
def generateItems (items : List OutlineItemData) (s : GenContext) :
    GenContext :=
  match items with
  | [] => s
  | item :: rest =>
      let (s', d) := generate item 1 s
      generateItems rest { s' with insertionPoint := d }

/-- The whole target-tree construction pass of patchOutlineEntry (source
lines 145-154): build the context, generate every top-level item, then
flush the trailing canvas stubs into the last visited node (or the root
when there was no item). -/
def genPhase (pages : List CanvasPage) (items : List OutlineItemData) :
    GenContext :=
  let ctx := GenContext.init pages
  let s1 := generateItems items ctx
  spliceCanvas s1 (s1.lastVisit.getD 0) (s1.pages.length + 1)

/-- Payload of an OriginViewInstruction: the TypeScript tuple's third slot
holds a node for insert instructions and a source offset for swap_in. -/
inductive NodeOrIdx where
  | node (n : DomNode)
  | idx (i : Nat)
deriving DecidableEq

/-- OriginViewInstruction (from ./svg-patch): an op name, a target offset,
and the payload. -/
structure OriginViewInstruction where
  op : String
  off : Nat
  fr : NodeOrIdx
deriving DecidableEq

/-- List insertion before position i (appends when i is past the end),
modelling Element.insertBefore with the child at offset i as reference
(insertBefore with an undefined reference appends). -/
def insertAt (l : List DomNode) (i : Nat) (a : DomNode) : List DomNode :=
  l.take i ++ [a] ++ l.drop i

/-- Model of Number.parseInt on the attribute strings this subsystem
produces: the longest leading run of decimal digits, none when there is no
leading digit (parseInt then yields NaN; sign, whitespace and hex handling
never arise on generated data-page-number values). -/
def parseNat? (s : String) : Option Nat :=
  let ds := s.data.takeWhile (fun c => c.isDigit)
  if ds.isEmpty then none
  else some (ds.foldl (fun acc c => acc * 10 + (c.toNat - '0'.toNat)) 0)

/-- One iteration of the edit-script loop of
runOriginViewInstructionsOnOutline (source lines 234-260), acting on the
page registry and on the child list of `prev`.

insert: insertBefore(fr, children[off]); a non-node payload is a TypeError.
swap_in: relocate children[fr] before children[off]; DOM reference
  semantics are translated to indices: the reference child keeps its
  identity across the implicit removal of the moved node, an out-of-range
  reference means append, and insertBefore(x, x) leaves the list unchanged
  (x is re-inserted before its own next sibling).
remove: capture the child, recover the page record when the child is a
  page node whose parsed data-page-number is a valid registry slot
  (parseInt of a missing attribute gives NaN and NaN comparisons are
  false, so the recovery is skipped), then detach it; an out-of-range
  offset makes the final elem.remove() a TypeError.
Any other op name throws "unknown op". -/
def runOriginViewInstr (pages : List CanvasPage) (cs : List DomNode)
    (instr : OriginViewInstruction) :
    Except String (List CanvasPage × List DomNode) :=
  match instr.op with
  | "insert" =>
      match instr.fr with
      | .node nd => .ok (pages, insertAt cs instr.off nd)
      | .idx _ => .error "TypeError: parameter 1 is not of type Node"
  | "swap_in" =>
      match instr.fr with
      | .idx j =>
          if h : j < cs.length then
            let moved := cs[j]
            let pos := if instr.off ≤ j then instr.off
                       else if instr.off < cs.length then instr.off - 1
                       else cs.length - 1
            .ok (pages, insertAt (cs.eraseIdx j) pos moved)
          else .error "TypeError: parameter 1 is not of type Node"
      | .node _ => .error "TypeError: parameter 1 is not of type Node"
  | "remove" =>
      match cs[instr.off]? with
      | none => .error "TypeError: elem is undefined"
      | some e =>
          let pages' :=
            if e.hasClass "typst-page" then
              match (e.getAttr "data-page-number").bind parseNat? with
              | some k =>
                  if h : k < pages.length then
                    pages.set k { pages[k] with
                      container := e, elem := e.firstElementChild }
                  else pages
              | none => pages
            else pages
          .ok (pages', cs.eraseIdx instr.off)
  | _ => .error ("unknown op " ++ instr.op)

/-- runOriginViewInstructionsOnOutline (source lines 230-261): run the edit
script left to right, aborting on the first error. -/
def runOriginViewInstructionsOnOutline (pages : List CanvasPage)
    (cs : List DomNode) :
    List OriginViewInstruction → Except String (List CanvasPage × List DomNode)
  | [] => .ok (pages, cs)
  | instr :: rest => do
      let (pages', cs') ← runOriginViewInstr pages cs instr
      runOriginViewInstructionsOnOutline pages' cs' rest

section Reconcile

variable {τ : Type}

mutual

/-- reuseOrPatchOutlineElem (source lines 174-203), parametrized over the
external collaborators equalPatchElem and patchAttributes (and, for the
recursive descent, the two alignment collaborators).  Returns the updated
page registry, the updated prev element, and the reused flag.  The mutation
of next (removeAttribute of the reuse tag) is local: the caller never reads
next afterwards.  When the reused prev is a page node, the registry record
at the slot parsed from next's data-page-number is rebound (an unparsable
or out-of-range slot is a TypeError on an undefined record, as in JS). -/
def reuseOrPatchOutlineElem
    (equalPatchElem : DomNode → DomNode → Bool)
    (patchAttributes : DomNode → DomNode → DomNode)
    (interpretTargetView :
      List DomNode → List DomNode → Bool → List τ × List (Nat × Nat))
    (changeViewPerspective :
      List DomNode → List τ → List OriginViewInstruction)
    (fuel : Nat) (pages : List CanvasPage) (prev next : DomNode) :
    Except String (List CanvasPage × DomNode × Bool) :=
  match fuel with
  | 0 => .error "out of fuel"
  | fuel + 1 =>
    let canReuse := equalPatchElem prev next
    let next' := next.removeAttr TypstPatchAttrs.ReuseFrom
    let isPageElem := prev.hasClass "typst-page"
    let prev1 := if isPageElem then prev else patchAttributes prev next'
    if canReuse then
      if isPageElem then
        match (next'.getAttr "data-page-number").bind parseNat? with
        | none => .error "TypeError: cannot set properties of undefined"
        | some k =>
            if h : k < pages.length then
              .ok (pages.set k { pages[k] with
                  inserter := some .poisionCanvasMoved,
                  container := prev1,
                  elem := prev1.firstElementChild }, prev1, true)
            else .error "TypeError: cannot set properties of undefined"
      else .ok (pages, prev1, true)
    else if isPageElem then
      .ok (pages, prev1, false)
    else do
      let (pages', cs') ← patchOutlineChildren equalPatchElem patchAttributes
        interpretTargetView changeViewPerspective fuel pages
        prev1.children next'.children
      .ok (pages', prev1.withChildren cs', false)
termination_by (fuel, 0)

/-- patchOutlineChildren (source lines 206-228): ask the alignment
collaborator for the target view and the matched pairs, patch each matched
pair in place, reproject the target view into origin instructions against
the patched child list, and run them. -/
def patchOutlineChildren
    (equalPatchElem : DomNode → DomNode → Bool)
    (patchAttributes : DomNode → DomNode → DomNode)
    (interpretTargetView :
      List DomNode → List DomNode → Bool → List τ × List (Nat × Nat))
    (changeViewPerspective :
      List DomNode → List τ → List OriginViewInstruction)
    (fuel : Nat) (pages : List CanvasPage) (prevCs nextCs : List DomNode) :
    Except String (List CanvasPage × List DomNode) :=
  match fuel with
  | 0 => .error "out of fuel"
  | fuel + 1 => do
    let (targetView, toPatch) := interpretTargetView prevCs nextCs false
    let (pages', prevCs') ← patchPairs equalPatchElem patchAttributes
      interpretTargetView changeViewPerspective fuel pages prevCs nextCs
      toPatch
    let originView := changeViewPerspective prevCs' targetView
    runOriginViewInstructionsOnOutline pages' prevCs' originView
termination_by (fuel, 0)

/-- The toPatch loop of patchOutlineChildren (source lines 216-218).  The
source iterates over pairs of element references into the two child lists;
reference identity is modelled by the pair of list indices. -/
def patchPairs
    (equalPatchElem : DomNode → DomNode → Bool)
    (patchAttributes : DomNode → DomNode → DomNode)
    (interpretTargetView :
      List DomNode → List DomNode → Bool → List τ × List (Nat × Nat))
    (changeViewPerspective :
      List DomNode → List τ → List OriginViewInstruction)
    (fuel : Nat) (pages : List CanvasPage) (prevCs nextCs : List DomNode) :
    List (Nat × Nat) → Except String (List CanvasPage × List DomNode)
  | [] => .ok (pages, prevCs)
  | (i, j) :: rest =>
      match prevCs[i]?, nextCs[j]? with
      | some p, some n => do
          let (pages', p', _) ← reuseOrPatchOutlineElem equalPatchElem
            patchAttributes interpretTargetView changeViewPerspective fuel
            pages p n
          patchPairs equalPatchElem patchAttributes interpretTargetView
            changeViewPerspective fuel pages' (prevCs.set i p') nextCs rest
      | _, _ => .error "TypeError: bad patch pair"
termination_by toPatch => (fuel, toPatch.length + 1)

end

/-- patchOutlineEntry (source lines 144-169): run the target-tree
construction pass, then either adopt the target children directly (first
render) or patch the existing children, and finally arm the default
inserter on every page record that has none. -/
def patchOutlineEntry
    (equalPatchElem : DomNode → DomNode → Bool)
    (patchAttributes : DomNode → DomNode → DomNode)
    (interpretTargetView :
      List DomNode → List DomNode → Bool → List τ × List (Nat × Nat))
    (changeViewPerspective :
      List DomNode → List τ → List OriginViewInstruction)
    (fuel : Nat) (prev : DomNode) (pages : List CanvasPage)
    (items : List OutlineItemData) :
    Except String (DomNode × List CanvasPage) := do
  let s := genPhase pages items
  let (prev', pages') ←
    if prev.children = [] then
      pure (prev.withChildren (prev.children ++ s.root.children), s.pages)
    else do
      let (pgs, cs') ← patchOutlineChildren equalPatchElem patchAttributes
        interpretTargetView changeViewPerspective fuel s.pages
        prev.children s.root.children
      pure (prev.withChildren cs', pgs)
  pure (prev', pages'.map (fun page =>
    { page with inserter := some (page.inserter.getD .replaceStubToRealCanvas) }))

end Reconcile

mutual

/-- Document-order (pre-order) list of the data-page-number values of all
nodes of a tree: exactly the canvas stub placeholders are marked with this
attribute by the generator. -/
def docStubs : DomNode → List String
  | .mk _ _ attrs _ cs =>
      (match (attrs.find? (fun p => p.1 = "data-page-number")).map (·.2) with
       | some v => [v]
       | none => []) ++ docStubsList cs

def docStubsList : List DomNode → List String
  | [] => []
  | c :: cs => docStubs c ++ docStubsList cs

end

mutual

/-- Document-order (pre-order) list of the identity tags of all nodes of a
tree (nodes without a tag, such as the virtual root, contribute nothing). -/
def docTags : DomNode → List String
  | .mk _ _ attrs _ cs =>
      (match (attrs.find? (fun p => p.1 = TypstPatchAttrs.Tid)).map (·.2) with
       | some v => [v]
       | none => []) ++ docTagsList cs

def docTagsList : List DomNode → List String
  | [] => []
  | c :: cs => docTags c ++ docTagsList cs

end

mutual

/-- Pre-order list of all nodes of a tree (the node itself included). -/
def allNodes : DomNode → List DomNode
  | n@(.mk _ _ _ _ cs) => n :: allNodesList cs

def allNodesList : List DomNode → List DomNode
  | [] => []
  | c :: cs => allNodes c ++ allNodesList cs

end

mutual

/-- Height of a DOM tree (a leaf has height 1). -/
def domDepth : DomNode → Nat
  | .mk _ _ _ _ cs => domDepthList cs + 1

def domDepthList : List DomNode → Nat
  | [] => 0
  | c :: cs => max (domDepth c) (domDepthList cs)

end

/-- Modelled from the spec: the reuse oracle equalPatchElem of ./svg-patch
(not under src/).  Per section 6 it must be consistent with the identity
tags and the always-repatch flag: two nodes are judged reusable when their
identity tags agree and the target does not carry the always-repatch
flag. -/
def specEqualPatchElem (prev next : DomNode) : Bool :=
  prev.getAttr TypstPatchAttrs.Tid == next.getAttr TypstPatchAttrs.Tid
    && (next.getAttr TypstPatchAttrs.BadEquality).isNone

/-- Modelled from the spec: the attribute patcher patchAttributes of
./svg-patch (not under src/), which copies nextNode's attributes (the class
attribute included) onto prevNode; tag name, text content and children are
untouched. -/
def specPatchAttributes (prev next : DomNode) : DomNode :=
  match prev, next with
  | .mk t _ _ x cs, .mk _ c' a' _ _ => .mk t c' a' x cs

/-- Modelled from the spec: the sequence-alignment collaborator
interpretTargetView of ./svg-patch (not under src/).  When the two child
sequences carry pairwise identical identity tags it matches them
positionally and the target view needs no structural edits; otherwise it
describes a full rebuild (remove every previous child from the right, then
insert every target child). -/
def specInterpretTargetView (prevCs nextCs : List DomNode) (_ : Bool) :
    List OriginViewInstruction × List (Nat × Nat) :=
  if prevCs.map (fun n => n.getAttr TypstPatchAttrs.Tid)
      = nextCs.map (fun n => n.getAttr TypstPatchAttrs.Tid) then
    ([], (List.range prevCs.length).map (fun i => (i, i)))
  else
    ((List.range prevCs.length).reverse.map
        (fun i => { op := "remove", off := i, fr := .idx 0 }) ++
      nextCs.enum.map (fun p => { op := "insert", off := p.1, fr := .node p.2 }),
     [])

/-- Modelled from the spec: the reprojection collaborator
changeViewPerspective of ./svg-patch (not under src/); with the target view
already expressed as origin instructions by specInterpretTargetView, the
reprojection is the identity. -/
def specChangeViewPerspective (_ : List DomNode)
    (tv : List OriginViewInstruction) : List OriginViewInstruction :=
  tv

/-! Helper lemmas and invariants for the proofs. -/

theorem list_set_self {α : Type} : ∀ (l : List α) (n : Nat) (h : n < l.length),
    l.set n l[n] = l
  | _ :: _, 0, _ => rfl
  | a :: l, n + 1, h => by
      simp only [List.set_cons_succ, List.cons.injEq, true_and]
      exact list_set_self l n (by simpa using h)

/-- Attribute lookup on a raw attribute list (getAttr seen from outside the
DomNode structure). -/
def attrLookup (k : String) (a : List (String × String)) : Option String :=
  (a.find? (fun p => p.1 = k)).map (·.2)

theorem getAttr_eq_attrLookup (n : DomNode) (k : String) :
    n.getAttr k = attrLookup k n.attrs := rfl

/-- Per-node predicate evaluated on the fields untouched by appendAt. -/
def NodeQ : Type :=
  String → List String → List (String × String) → Option String → Bool

mutual

/-- Conjunction of a per-node predicate over all nodes of a tree. -/
def nodesAll (Q : NodeQ) : DomNode → Bool
  | .mk t c a x cs => Q t c a x && nodesAllList Q cs

def nodesAllList (Q : NodeQ) : List DomNode → Bool
  | [] => true
  | c :: cs => nodesAll Q c && nodesAllList Q cs

end

/-- Every generated node (below the virtual root) carries the tagging
contract: an identity tag shaped from its data-title (outline container),
its text content (title span), or its data-page-number (canvas stub), with
the always-repatch flag exactly on the first two shapes. -/
def wellTaggedQ : NodeQ := fun _ _ a x =>
  match attrLookup TypstPatchAttrs.Tid a with
  | none => false
  | some tid =>
      (match attrLookup "data-title" a with
       | some t =>
           decide (tid = "outline:" ++ t)
             && (attrLookup TypstPatchAttrs.ReuseFrom a == some tid)
             && (attrLookup TypstPatchAttrs.BadEquality a == some "1")
       | none => false)
      || (match x with
          | some t =>
              decide (tid = "title:" ++ t)
                && (attrLookup TypstPatchAttrs.ReuseFrom a == some tid)
                && (attrLookup TypstPatchAttrs.BadEquality a == some "1")
          | none => false)
      || (match attrLookup "data-page-number" a with
          | some v =>
              decide (tid = "canvas:" ++ v)
                && (attrLookup TypstPatchAttrs.ReuseFrom a).isNone
                && (attrLookup TypstPatchAttrs.BadEquality a).isNone
          | none => false)

/-- No generated node carries the page-region class. -/
def noPageClassQ : NodeQ := fun _ c _ _ => !(c.contains "typst-page")

theorem docStubsList_append (l₁ l₂ : List DomNode) :
    docStubsList (l₁ ++ l₂) = docStubsList l₁ ++ docStubsList l₂ := by
  induction l₁ with
  | nil => simp [docStubsList]
  | cons c cs ih => simp [docStubsList, ih]

theorem nodesAllList_append (Q : NodeQ) (l₁ l₂ : List DomNode) :
    nodesAllList Q (l₁ ++ l₂) = (nodesAllList Q l₁ && nodesAllList Q l₂) := by
  induction l₁ with
  | nil => simp [nodesAllList]
  | cons c cs ih => simp [nodesAllList, ih, Bool.and_assoc]

/-- Appending a subtree anywhere on the rightmost spine appends its stub
markers at the end of the document order. -/
theorem docStubs_appendAt : ∀ (d : Nat) (t c : DomNode),
    docStubs (t.appendAt d c) = docStubs t ++ docStubs c := by
  intro d
  induction d with
  | zero =>
      intro t c
      cases t with
      | mk tg cl a x cs =>
          simp [DomNode.appendAt, docStubs, docStubsList_append, docStubsList]
  | succ d ih =>
      intro t c
      cases t with
      | mk tg cl a x cs =>
          cases cs using List.reverseRecOn with
          | nil => simp [DomNode.appendAt, docStubs, docStubsList]
          | append_singleton as a' =>
              simp [DomNode.appendAt, List.getLast?_concat,
                List.dropLast_concat, docStubs, docStubsList_append,
                docStubsList, ih]

/-- Appending a subtree on the rightmost spine preserves a per-node
predicate over the whole tree. -/
theorem nodesAll_appendAt (Q : NodeQ) : ∀ (d : Nat) (t c : DomNode),
    nodesAll Q (t.appendAt d c) = (nodesAll Q t && nodesAll Q c) := by
  intro d
  induction d with
  | zero =>
      intro t c
      cases t with
      | mk tg cl a x cs =>
          simp [DomNode.appendAt, nodesAll, nodesAllList_append, nodesAllList,
            Bool.and_assoc]
  | succ d ih =>
      intro t c
      cases t with
      | mk tg cl a x cs =>
          cases cs using List.reverseRecOn with
          | nil => simp [DomNode.appendAt, nodesAll, nodesAllList]
          | append_singleton as a' =>
              simp [DomNode.appendAt, List.getLast?_concat,
                List.dropLast_concat, nodesAll, nodesAllList_append,
                nodesAllList, ih, Bool.and_assoc]

/-- Appending on the rightmost spine, seen from the child list of the root:
the appended subtree's nodes are added, the rest is preserved. -/
theorem nodesAllList_appendAt_children (Q : NodeQ) :
    ∀ (d : Nat) (t c : DomNode),
    nodesAllList Q (t.appendAt d c).children
      = (nodesAllList Q t.children && nodesAll Q c) := by
  intro d t c
  cases t with
  | mk tg cl a x cs =>
      cases d with
      | zero =>
          simp [DomNode.appendAt, DomNode.children, nodesAllList_append,
            nodesAllList]
      | succ d =>
          cases cs using List.reverseRecOn with
          | nil => simp [DomNode.appendAt, DomNode.children, nodesAllList]
          | append_singleton as a' =>
              simp [DomNode.appendAt, List.getLast?_concat,
                List.dropLast_concat, DomNode.children, nodesAllList_append,
                nodesAllList, nodesAll_appendAt, Bool.and_assoc]

/-- Everything of a page record except its stub field (the only field the
generation pass writes). -/
def pageCore (pg : CanvasPage) :
    Nat × Nat × Nat × DomNode × Option DomNode × Option InserterKind :=
  (pg.index, pg.width, pg.height, pg.container, pg.elem, pg.inserter)

theorem wellTagged_stubElem (i : Nat) :
    nodesAll wellTaggedQ (stubElem i) = true := by
  simp [stubElem, DomNode.setAttr, DomNode.createElement, nodesAll,
    nodesAllList, wellTaggedQ, attrLookup, TypstPatchAttrs.Tid,
    TypstPatchAttrs.ReuseFrom, TypstPatchAttrs.BadEquality, List.find?]

theorem noPageClass_stubElem (i : Nat) :
    nodesAll noPageClassQ (stubElem i) = true := by
  simp [stubElem, DomNode.setAttr, DomNode.createElement, nodesAll,
    nodesAllList, noPageClassQ]

theorem wellTagged_outlineDiv (t : String) (level : Nat) :
    nodesAll wellTaggedQ (outlineDivWithTitle t level) = true := by
  simp [outlineDivWithTitle, tagPatchId, DomNode.setAttr, DomNode.addClass,
    DomNode.setText, DomNode.createElement, DomNode.withChildren, nodesAll,
    nodesAllList, wellTaggedQ, attrLookup, TypstPatchAttrs.Tid,
    TypstPatchAttrs.ReuseFrom, TypstPatchAttrs.BadEquality, List.find?]

theorem typst_page_ne_level (s : String) : ¬ ("typst-page" = "level-" ++ s) := by
  intro h
  have h2 : "typst-page".data = "level-".data ++ s.data := by
    have h3 := congrArg String.data h
    simp only [String.data_append] at h3
    exact h3
  have hL : "typst-page".data = ['t','y','p','s','t','-','p','a','g','e'] := rfl
  have hR : "level-".data = ['l','e','v','e','l','-'] := rfl
  rw [hL, hR] at h2
  simp at h2

theorem noPageClass_outlineDiv (t : String) (level : Nat) :
    nodesAll noPageClassQ (outlineDivWithTitle t level) = true := by
  simp [outlineDivWithTitle, tagPatchId, DomNode.setAttr, DomNode.addClass,
    DomNode.setText, DomNode.createElement, DomNode.withChildren, nodesAll,
    nodesAllList, noPageClassQ, List.contains, typst_page_ne_level]

theorem docStubs_outlineDiv (t : String) (level : Nat) :
    docStubs (outlineDivWithTitle t level) = [] := by
  simp [outlineDivWithTitle, tagPatchId, DomNode.setAttr, DomNode.addClass,
    DomNode.setText, DomNode.createElement, DomNode.withChildren, docStubs,
    docStubsList, List.find?, TypstPatchAttrs.Tid, TypstPatchAttrs.ReuseFrom,
    TypstPatchAttrs.BadEquality]

theorem docStubs_stubElem (i : Nat) :
    docStubs (stubElem i) = [toString i] := by
  simp [stubElem, DomNode.setAttr, DomNode.createElement, docStubs,
    docStubsList, List.find?, TypstPatchAttrs.Tid]

/-- Invariant maintained by the whole generation pass. -/
structure GenInv (s : GenContext) : Prop where
  stubs : docStubs s.root
    = ((s.pages.take (s.populateCnt - 1)).map (fun pg => toString pg.index))
  one_le : 1 ≤ s.populateCnt
  le_len : s.populateCnt ≤ s.pages.length + 1
  tagged : nodesAllList wellTaggedQ s.root.children = true
  nopage : nodesAllList noPageClassQ s.root.children = true
  stubSet : ∀ (k : Nat) (pg : CanvasPage), k + 1 < s.populateCnt →
    s.pages[k]? = some pg → pg.stub = some (stubElem pg.index)

theorem GenInv.init (pages : List CanvasPage) : GenInv (GenContext.init pages) := by
  constructor <;>
    simp [GenContext.init, DomNode.createElement, docStubs, docStubsList,
      nodesAllList, DomNode.children, List.find?]

/-- What one splice loop does to the context: stubs emitted up to watermark
m in document order, stub fields recorded, everything else preserved. -/
structure SpliceOut (s s' : GenContext) (m : Nat) : Prop where
  stubs : docStubs s'.root
    = ((s'.pages.map (fun pg => toString pg.index)).take m)
  stubSet : ∀ (k : Nat) (pg : CanvasPage), k < m →
    s'.pages[k]? = some pg → pg.stub = some (stubElem pg.index)
  core : s'.pages.map pageCore = s.pages.map pageCore
  cnt : s'.populateCnt = s.populateCnt
  ip : s'.insertionPoint = s.insertionPoint
  par : s'.parent = s.parent
  lv : s'.lastVisit = s.lastVisit
  tagged : nodesAllList wellTaggedQ s'.root.children
    = nodesAllList wellTaggedQ s.root.children
  nopage : nodesAllList noPageClassQ s'.root.children
    = nodesAllList noPageClassQ s.root.children

theorem spliceLoop_inv : ∀ (n j u d : Nat) (s : GenContext),
    u - (j + 1) = n →
    u ≤ s.pages.length + 1 →
    docStubs s.root = ((s.pages.map (fun pg => toString pg.index)).take j) →
    (∀ (k : Nat) (pg : CanvasPage), k < j → s.pages[k]? = some pg →
      pg.stub = some (stubElem pg.index)) →
    SpliceOut s (spliceLoop d (j + 1) u s) (max (u - 1) j) := by
  intro n
  induction n with
  | zero =>
      intro j u d s hn hu hst hss
      have hle : u ≤ j + 1 := by omega
      have : ¬ (j + 1 < u) := by omega
      rw [spliceLoop, if_neg this]
      have hm : max (u - 1) j = j := by omega
      rw [hm]
      exact ⟨hst, hss, rfl, rfl, rfl, rfl, rfl, rfl, rfl⟩
  | succ n ih =>
      intro j u d s hn hu hst hss
      have hlt : j + 1 < u := by omega
      rw [spliceLoop, if_pos hlt]
      simp only [Nat.add_sub_cancel]
      have hj : j < s.pages.length := by omega
      have hget : s.pages[j]? = some s.pages[j] := List.getElem?_eq_getElem hj
      set pg := s.pages[j] with hpg
      have hpush : pushCanvas s d j =
          { s with pages := s.pages.set j { pg with stub := some (stubElem pg.index) },
                   root := s.root.appendAt d (stubElem pg.index) } := by
        rw [pushCanvas, hget]
      have hpages1 : (pushCanvas s d j).pages
          = s.pages.set j { pg with stub := some (stubElem pg.index) } := by
        rw [hpush]
      have hroot1 : (pushCanvas s d j).root
          = s.root.appendAt d (stubElem pg.index) := by
        rw [hpush]
      have hlen1 : (pushCanvas s d j).pages.length = s.pages.length := by
        rw [hpages1]; simp
      -- the index projection of the registry is unchanged
      have hmapidx : (pushCanvas s d j).pages.map (fun pg => toString pg.index)
          = s.pages.map (fun pg => toString pg.index) := by
        rw [hpages1, List.map_set]
        have : (s.pages.map (fun pg => toString pg.index)).set j (toString pg.index)
            = s.pages.map (fun pg => toString pg.index) := by
          have hj' : j < (s.pages.map (fun pg => toString pg.index)).length := by
            simpa using hj
          have := list_set_self (s.pages.map (fun pg => toString pg.index)) j hj'
          simpa [hpg] using this
        simpa using this
      have hcore1 : (pushCanvas s d j).pages.map pageCore = s.pages.map pageCore := by
        rw [hpages1, List.map_set]
        have hj' : j < (s.pages.map pageCore).length := by simpa using hj
        have := list_set_self (s.pages.map pageCore) j hj'
        have hc : pageCore { pg with stub := some (stubElem pg.index) } = pageCore pg := rfl
        simpa [hc, hpg] using this
      -- document-order stubs after the push
      have hst1 : docStubs (pushCanvas s d j).root
          = (((pushCanvas s d j).pages.map (fun pg => toString pg.index)).take (j + 1)) := by
        rw [hroot1, docStubs_appendAt, hst, docStubs_stubElem, hmapidx]
        rw [List.take_succ]
        have : (s.pages.map (fun pg => toString pg.index))[j]? = some (toString pg.index) := by
          simp [hj, hpg]
        simp [this]
      -- stub fields after the push
      have hss1 : ∀ (k : Nat) (pg' : CanvasPage), k < j + 1 →
          (pushCanvas s d j).pages[k]? = some pg' → pg'.stub = some (stubElem pg'.index) := by
        intro k pg' hk hkget
        rw [hpages1, List.getElem?_set] at hkget
        by_cases hkj : j = k
        · rw [if_pos hkj, if_pos (hkj ▸ hj)] at hkget
          cases hkget
          rfl
        · rw [if_neg hkj] at hkget
          exact hss k pg' (by omega) hkget
      have hu1 : u ≤ (pushCanvas s d j).pages.length + 1 := by rw [hlen1]; exact hu
      have := ih (j + 1) u d (pushCanvas s d j) (by omega) hu1 hst1 hss1
      have hmax : max (u - 1) (j + 1) = max (u - 1) j := by omega
      rw [hmax] at this
      -- compose with what the push itself preserved
      refine ⟨this.stubs, this.stubSet, ?_, ?_, ?_, ?_, ?_, ?_, ?_⟩
      · rw [this.core, hcore1]
      · rw [this.cnt, hpush]
      · rw [this.ip, hpush]
      · rw [this.par, hpush]
      · rw [this.lv, hpush]
      · rw [this.tagged, hroot1, nodesAllList_appendAt_children,
          wellTagged_stubElem, Bool.and_true]
      · rw [this.nopage, hroot1, nodesAllList_appendAt_children,
          noPageClass_stubElem, Bool.and_true]

theorem spliceLoop_fields : ∀ (n i u d : Nat) (s : GenContext), u - i = n →
    (spliceLoop d i u s).populateCnt = s.populateCnt
    ∧ (spliceLoop d i u s).pages.length = s.pages.length := by
  intro n
  induction n with
  | zero =>
      intro i u d s hn
      rw [spliceLoop, if_neg (by omega)]
      exact ⟨rfl, rfl⟩
  | succ n ih =>
      intro i u d s hn
      have hlt : i < u := by omega
      rw [spliceLoop, if_pos hlt]
      have hstep := ih (i + 1) u d (pushCanvas s d (i - 1)) (by omega)
      refine ⟨?_, ?_⟩
      · rw [hstep.1]
        unfold pushCanvas
        cases s.pages[i - 1]? <;> rfl
      · rw [hstep.2]
        unfold pushCanvas
        cases s.pages[i - 1]? <;> simp

/-- The watermark update of spliceCanvas, unconditionally: the new watermark
is the clamped bound joined with the old watermark. -/
theorem spliceCanvas_cnt (s : GenContext) (d u : Nat) :
    (spliceCanvas s d u).populateCnt
      = max (min u (s.pages.length + 1)) s.populateCnt := by
  unfold spliceCanvas
  have := spliceLoop_fields (min u (s.pages.length + 1) - s.populateCnt)
    s.populateCnt (min u (s.pages.length + 1)) d s rfl
  simp only [this.1]

/-- The watermark never decreases at a spliceCanvas call. -/
theorem spliceCanvas_cnt_mono (s : GenContext) (d u : Nat) :
    s.populateCnt ≤ (spliceCanvas s d u).populateCnt := by
  rw [spliceCanvas_cnt]; omega

/-- The watermark never exceeds the old watermark joined with
pageCount + 1 at a spliceCanvas call. -/
theorem spliceCanvas_cnt_bound (s : GenContext) (d u : Nat) :
    (spliceCanvas s d u).populateCnt
      ≤ max s.populateCnt (s.pages.length + 1) := by
  rw [spliceCanvas_cnt]; omega

theorem spliceCanvas_inv (s : GenContext) (d u : Nat) (h : GenInv s) :
    GenInv (spliceCanvas s d u)
    ∧ (spliceCanvas s d u).pages.map pageCore = s.pages.map pageCore
    ∧ (spliceCanvas s d u).populateCnt
        = max (min u (s.pages.length + 1)) s.populateCnt
    ∧ (spliceCanvas s d u).insertionPoint = s.insertionPoint
    ∧ (spliceCanvas s d u).parent = s.parent
    ∧ (spliceCanvas s d u).lastVisit = s.lastVisit := by
  have hcnt : s.populateCnt = (s.populateCnt - 1) + 1 := by
    have := h.one_le; omega
  set j := s.populateCnt - 1 with hj
  set u' := min u (s.pages.length + 1) with hu'
  have hloop : SpliceOut s (spliceLoop d (j + 1) u' s) (max (u' - 1) j) := by
    apply spliceLoop_inv (u' - (j + 1)) j u' d s rfl (by omega)
    · rw [h.stubs, List.map_take, hj]
    · intro k pg hk hkget
      exact h.stubSet k pg (by omega) hkget
  have hcall : spliceCanvas s d u
      = { spliceLoop d (j + 1) u' s with
          populateCnt := max u' (spliceLoop d (j + 1) u' s).populateCnt } := by
    unfold spliceCanvas
    rw [← hu', ← hcnt]
  have hlen : (spliceLoop d (j + 1) u' s).pages.length = s.pages.length := by
    have := congrArg List.length hloop.core
    simpa using this
  have hcntval : (spliceLoop d (j + 1) u' s).populateCnt = s.populateCnt :=
    hloop.cnt
  rw [hcall]
  refine ⟨?_, hloop.core, ?_, hloop.ip, hloop.par, hloop.lv⟩
  · constructor
    · show docStubs (spliceLoop d (j + 1) u' s).root
        = (((spliceLoop d (j + 1) u' s).pages.take
            (max u' (spliceLoop d (j + 1) u' s).populateCnt - 1)).map
            (fun pg => toString pg.index))
      rw [hloop.stubs, ← List.map_take, hcntval]
      congr 2
      omega
    · show 1 ≤ max u' (spliceLoop d (j + 1) u' s).populateCnt
      rw [hcntval]
      have := h.one_le; omega
    · show max u' (spliceLoop d (j + 1) u' s).populateCnt
        ≤ (spliceLoop d (j + 1) u' s).pages.length + 1
      rw [hcntval, hlen]
      have := h.le_len; omega
    · show nodesAllList wellTaggedQ (spliceLoop d (j + 1) u' s).root.children = true
      rw [hloop.tagged]; exact h.tagged
    · show nodesAllList noPageClassQ (spliceLoop d (j + 1) u' s).root.children = true
      rw [hloop.nopage]; exact h.nopage
    · intro k pg hk hkget
      refine hloop.stubSet k pg ?_ hkget
      simp only [hcntval] at hk
      omega
  · rw [hcntval]

/-- GenInv only constrains root, pages and populateCnt. -/
theorem GenInv.transport {s s' : GenContext} (h : GenInv s)
    (hr : s'.root = s.root) (hp : s'.pages = s.pages)
    (hc : s'.populateCnt = s.populateCnt) : GenInv s' :=
  ⟨by rw [hr, hp, hc]; exact h.stubs,
   by rw [hc]; exact h.one_le,
   by rw [hc, hp]; exact h.le_len,
   by rw [hr]; exact h.tagged,
   by rw [hr]; exact h.nopage,
   fun k pg hk hg => h.stubSet k pg (hc ▸ hk) (hp ▸ hg)⟩

/-- Appending a stub-free, well-tagged, page-class-free subtree anywhere on
the rightmost spine preserves the generation invariant. -/
theorem GenInv.appendNode {s : GenContext} (h : GenInv s) (d : Nat)
    (lv : Option Nat) (node : DomNode)
    (h1 : docStubs node = []) (h2 : nodesAll wellTaggedQ node = true)
    (h3 : nodesAll noPageClassQ node = true) :
    GenInv { s with root := s.root.appendAt d node, lastVisit := lv } := by
  constructor
  · show docStubs (s.root.appendAt d node) = _
    rw [docStubs_appendAt, h1, List.append_nil]
    exact h.stubs
  · exact h.one_le
  · exact h.le_len
  · show nodesAllList wellTaggedQ (s.root.appendAt d node).children = true
    rw [nodesAllList_appendAt_children, h.tagged, h2]
    rfl
  · show nodesAllList noPageClassQ (s.root.appendAt d node).children = true
    rw [nodesAllList_appendAt_children, h.nopage, h3]
    rfl
  · exact h.stubSet

theorem generate_inv_mutual :
    (∀ (item : OutlineItemData) (level : Nat) (s : GenContext), GenInv s →
        GenInv (generate item level s).1
          ∧ (generate item level s).1.pages.map pageCore = s.pages.map pageCore)
    ∧ (∀ (items : List OutlineItemData) (level : Nat) (s : GenContext), GenInv s →
        GenInv (generateChildren items level s)
          ∧ (generateChildren items level s).pages.map pageCore
              = s.pages.map pageCore) := by
  apply generate.mutual_induct
    (fun item level s => GenInv s →
      GenInv (generate item level s).1
        ∧ (generate item level s).1.pages.map pageCore = s.pages.map pageCore)
    (fun items level s => GenInv s →
      GenInv (generateChildren items level s)
        ∧ (generateChildren items level s).pages.map pageCore
            = s.pages.map pageCore)
  · intro level s t position children pos s1 dNode s2 s3 ih hinv
    have hgen : generate (OutlineItemData.mk t position children) level s
        = ({ generateChildren children (level + 1) s3 with
              parent := s2.parent, insertionPoint := s2.insertionPoint },
           dNode) := by
      simp only [generate]
    have h1 := spliceCanvas_inv s s.insertionPoint pos hinv
    have hinv2 : GenInv s2 :=
      h1.1.appendNode s1.parent (some dNode) (outlineDivWithTitle t level)
        (docStubs_outlineDiv t level) (wellTagged_outlineDiv t level)
        (noPageClass_outlineDiv t level)
    have hinv3 : GenInv s3 := hinv2.transport rfl rfl rfl
    have ih' := ih hinv3
    rw [hgen]
    constructor
    · exact ih'.1.transport rfl rfl rfl
    · show (generateChildren children (level + 1) s3).pages.map pageCore
        = s.pages.map pageCore
      rw [ih'.2]
      exact h1.2.1
  · intro level s hinv
    exact ⟨by simp only [generateChildren]; exact hinv,
           by simp only [generateChildren]⟩
  · intro level s ch rest s' d heq ih1 ih2 hinv
    simp only [generateChildren, heq]
    have hch := ih1 hinv
    rw [heq] at hch
    have hinv' : GenInv ({ s' with insertionPoint := d } : GenContext) :=
      hch.1.transport rfl rfl rfl
    have hrest := ih2 hinv'
    refine ⟨hrest.1, ?_⟩
    rw [show (generateChildren rest level
        { pages := s'.pages, populateCnt := s'.populateCnt, root := s'.root,
          insertionPoint := d, parent := s'.parent, lastVisit := s'.lastVisit })
        = generateChildren rest level ({ s' with insertionPoint := d } : GenContext)
      from rfl]
    rw [hrest.2]
    exact hch.2

theorem generate_inv (item : OutlineItemData) (level : Nat) (s : GenContext)
    (h : GenInv s) :
    GenInv (generate item level s).1
      ∧ (generate item level s).1.pages.map pageCore = s.pages.map pageCore :=
  generate_inv_mutual.1 item level s h

theorem generateItems_inv (items : List OutlineItemData) (s : GenContext)
    (h : GenInv s) :
    GenInv (generateItems items s)
      ∧ (generateItems items s).pages.map pageCore = s.pages.map pageCore := by
  induction items generalizing s with
  | nil =>
      exact ⟨by simp only [generateItems]; exact h,
             by simp only [generateItems]⟩
  | cons item rest ih =>
      have hit := generate_inv item 1 s h
      rcases hgen : generate item 1 s with ⟨s', d⟩
      rw [hgen] at hit
      simp only [generateItems, hgen]
      have h' : GenInv ({ s' with insertionPoint := d } : GenContext) :=
        hit.1.transport rfl rfl rfl
      have hrest := ih ({ s' with insertionPoint := d } : GenContext) h'
      refine ⟨hrest.1, ?_⟩
      have key : (generateItems rest
          ({ s' with insertionPoint := d } : GenContext)).pages.map pageCore
          = s.pages.map pageCore := by
        rw [hrest.2]
        exact hit.2
      exact key

theorem map_index_of_core {l l' : List CanvasPage}
    (h : l.map pageCore = l'.map pageCore) :
    l.map (fun pg => toString pg.index) = l'.map (fun pg => toString pg.index) := by
  have h2 := congrArg (List.map (fun q :
      Nat × Nat × Nat × DomNode × Option DomNode × Option InserterKind =>
      toString q.1)) h
  simpa [List.map_map, Function.comp_def, pageCore] using h2

theorem map_inserter_of_core {l l' : List CanvasPage}
    (h : l.map pageCore = l'.map pageCore) :
    l.map (fun pg => pg.inserter) = l'.map (fun pg => pg.inserter) := by
  have h2 := congrArg (List.map (fun q :
      Nat × Nat × Nat × DomNode × Option DomNode × Option InserterKind =>
      q.2.2.2.2.2)) h
  simpa [List.map_map, Function.comp_def, pageCore] using h2

theorem length_of_core {l l' : List CanvasPage}
    (h : l.map pageCore = l'.map pageCore) : l.length = l'.length := by
  have h2 := congrArg List.length h
  simpa using h2

theorem genPhase_spec (pages : List CanvasPage) (items : List OutlineItemData) :
    GenInv (genPhase pages items)
    ∧ (genPhase pages items).pages.map pageCore = pages.map pageCore
    ∧ (genPhase pages items).populateCnt = pages.length + 1 := by
  have h0 := GenInv.init pages
  have h1 := generateItems_inv items (GenContext.init pages) h0
  have hlen1 : (generateItems items (GenContext.init pages)).pages.length
      = pages.length := by
    have := length_of_core h1.2
    simpa [GenContext.init] using this
  have h2 := spliceCanvas_inv (generateItems items (GenContext.init pages))
    ((generateItems items (GenContext.init pages)).lastVisit.getD 0)
    ((generateItems items (GenContext.init pages)).pages.length + 1) h1.1
  have hphase : genPhase pages items
      = spliceCanvas (generateItems items (GenContext.init pages))
        ((generateItems items (GenContext.init pages)).lastVisit.getD 0)
        ((generateItems items (GenContext.init pages)).pages.length + 1) := by
    simp only [genPhase]
  rw [hphase]
  refine ⟨h2.1, ?_, ?_⟩
  · rw [h2.2.1]
    have := h1.2
    simpa [GenContext.init] using this
  · rw [h2.2.2.1]
    have hle := h1.1.le_len
    rw [hlen1] at hle ⊢
    omega

theorem genPhase_docStubs (pages : List CanvasPage)
    (items : List OutlineItemData) :
    docStubs (genPhase pages items).root
      = pages.map (fun pg => toString pg.index) := by
  obtain ⟨hinv, hcore, hcnt⟩ := genPhase_spec pages items
  have hlen : (genPhase pages items).pages.length = pages.length :=
    length_of_core hcore
  have := hinv.stubs
  rw [hcnt] at this
  rw [this]
  have htake : (genPhase pages items).pages.take (pages.length + 1 - 1)
      = (genPhase pages items).pages := by
    rw [show pages.length + 1 - 1 = pages.length from rfl, ← hlen]
    exact List.take_length _
  rw [htake]
  exact map_index_of_core hcore

/-- C1: one target-tree construction pass (genPhase, the generation part of
patchOutlineEntry) emits, in document order of the target tree, exactly the
page placeholders of the registry in registry order — one stub per registry
slot, none twice, none skipped, ascending — for every page registry and
every outline item list, non-monotone page indices included; and the
populate watermark ends at pageCount + 1, never decreases at any
spliceCanvas call (the only operation that writes it), and never exceeds
the old watermark joined with pageCount + 1, so starting from watermark 1
it never exceeds pageCount + 1 during the pass. -/
theorem c1_target_tree_page_coverage :
    ∀ (pages : List CanvasPage) (items : List OutlineItemData),
    docStubs (genPhase pages items).root
        = pages.map (fun pg => toString pg.index)
    ∧ (genPhase pages items).populateCnt = pages.length + 1
    ∧ (∀ (s : GenContext) (d u : Nat),
        s.populateCnt ≤ (spliceCanvas s d u).populateCnt)
    ∧ (∀ (s : GenContext) (d u : Nat),
        (spliceCanvas s d u).populateCnt
          ≤ max s.populateCnt (s.pages.length + 1))
    ∧ (GenContext.init pages).populateCnt = 1
    ∧ (GenContext.init pages).populateCnt ≤ pages.length + 1 := by
  intro pages items
  refine ⟨genPhase_docStubs pages items, (genPhase_spec pages items).2.2,
    spliceCanvas_cnt_mono, spliceCanvas_cnt_bound, rfl, ?_⟩
  simp [GenContext.init]

theorem DomNode.tag_withChildren (n : DomNode) (cs : List DomNode) :
    (n.withChildren cs).tag = n.tag := by cases n; rfl

theorem DomNode.classes_withChildren (n : DomNode) (cs : List DomNode) :
    (n.withChildren cs).classes = n.classes := by cases n; rfl

theorem DomNode.attrs_withChildren (n : DomNode) (cs : List DomNode) :
    (n.withChildren cs).attrs = n.attrs := by cases n; rfl

theorem DomNode.text_withChildren (n : DomNode) (cs : List DomNode) :
    (n.withChildren cs).text = n.text := by cases n; rfl

/-- C2: whenever the reuse oracle judges a previous page node (class
typst-page) reusable against a target placeholder whose data-page-number
parses to registry slot k, reuseOrPatchOutlineElem rebinds the page record
at that slot: its container becomes the reused previous element, its elem
that element's first element child, and its inserter the poison callback,
whose every later invocation throws. -/
theorem c2_reuse_page_rebinds_record {τ : Type}
    (equalPatchElem : DomNode → DomNode → Bool)
    (patchAttributes : DomNode → DomNode → DomNode)
    (interpretTargetView :
      List DomNode → List DomNode → Bool → List τ × List (Nat × Nat))
    (changeViewPerspective :
      List DomNode → List τ → List OriginViewInstruction)
    (fuel : Nat) (pages : List CanvasPage) (prev next : DomNode)
    (k : Nat) (str : String)
    (hreuse : equalPatchElem prev next = true)
    (hpage : prev.hasClass "typst-page" = true)
    (hattr : (next.removeAttr TypstPatchAttrs.ReuseFrom).getAttr
      "data-page-number" = some str)
    (hparse : parseNat? str = some k)
    (hlen : k < pages.length) :
    reuseOrPatchOutlineElem equalPatchElem patchAttributes interpretTargetView
        changeViewPerspective (fuel + 1) pages prev next
      = .ok (pages.set k { pages[k] with
          inserter := some .poisionCanvasMoved,
          container := prev,
          elem := prev.firstElementChild }, prev, true)
    ∧ (∀ (t : CanvasPage) (host : DomNode),
        runInserter InserterKind.poisionCanvasMoved t host
          = .error "never called moved canvas") := by
  constructor
  · rw [reuseOrPatchOutlineElem]
    simp only [hreuse, hpage, hattr, hparse, Option.some_bind, if_true,
      ite_true, hlen, dif_pos]
  · intro t host
    rfl

/-- Concrete page record used by witnesses and counterexamples. -/
def pageFixture (i : Nat) : CanvasPage :=
  { index := i, width := 100, height := 100,
    container := DomNode.createElement "div", elem := none, inserter := none,
    stub := none }

/-- Concrete previous page element (class typst-page) for witnesses. -/
def pageNodeFixture : DomNode :=
  (DomNode.createElement "div").addClass "typst-page"

theorem c2_witness :
    ((fun (_ _ : DomNode) => true) pageNodeFixture (stubElem 0) = true
      ∧ pageNodeFixture.hasClass "typst-page" = true
      ∧ ((stubElem 0).removeAttr TypstPatchAttrs.ReuseFrom).getAttr
          "data-page-number" = some "0"
      ∧ parseNat? "0" = some 0
      ∧ 0 < [pageFixture 0].length)
    ∧ (reuseOrPatchOutlineElem (τ := OriginViewInstruction)
          (fun _ _ => true) (fun p _ => p) (fun _ _ _ => ([], []))
          (fun _ tv => tv) (0 + 1) [pageFixture 0] pageNodeFixture (stubElem 0)
        = .ok ([pageFixture 0].set 0 { [pageFixture 0][0] with
            inserter := some .poisionCanvasMoved,
            container := pageNodeFixture,
            elem := pageNodeFixture.firstElementChild }, pageNodeFixture, true)
      ∧ (∀ (t : CanvasPage) (host : DomNode),
          runInserter InserterKind.poisionCanvasMoved t host
            = .error "never called moved canvas")) :=
  ⟨⟨rfl, by decide, by decide, by decide, by decide⟩,
   c2_reuse_page_rebinds_record (fun _ _ => true) (fun p _ => p)
     (fun _ _ _ => ([], [])) (fun _ tv => tv) 0 [pageFixture 0]
     pageNodeFixture (stubElem 0) 0 "0" rfl (by decide) (by decide)
     (by decide) (by decide)⟩

theorem except_pure {ε α : Type} (a : α) :
    (pure a : Except ε α) = Except.ok a := rfl

theorem except_bind_ok {ε α β : Type} (a : α) (f : α → Except ε β) :
    (Except.ok a >>= f) = f a := rfl

theorem except_bind_error {ε α β : Type} (e : ε) (f : α → Except ε β) :
    ((Except.error e : Except ε α) >>= f) = Except.error e := rfl

/-- C6: for every matched pair handled by reuseOrPatchOutlineElem that
completes without throwing, the returned previous node has its own fields
(tag, classes, attributes, text) given by the external attribute patcher
applied to the pair — regardless of the reuse verdict — except when the
previous node is a page element (class typst-page), in which case the
previous node is returned entirely unmodified. -/
theorem c6_attr_patch_frame {τ : Type}
    (equalPatchElem : DomNode → DomNode → Bool)
    (patchAttributes : DomNode → DomNode → DomNode)
    (interpretTargetView :
      List DomNode → List DomNode → Bool → List τ × List (Nat × Nat))
    (changeViewPerspective :
      List DomNode → List τ → List OriginViewInstruction)
    (fuel : Nat) (pages : List CanvasPage) (prev next : DomNode)
    (pages' : List CanvasPage) (prev' : DomNode) (r : Bool)
    (h : reuseOrPatchOutlineElem equalPatchElem patchAttributes
        interpretTargetView changeViewPerspective (fuel + 1) pages prev next
      = .ok (pages', prev', r)) :
    (prev.hasClass "typst-page" = true → prev' = prev)
    ∧ (prev.hasClass "typst-page" = false →
        prev'.tag = (patchAttributes prev
            (next.removeAttr TypstPatchAttrs.ReuseFrom)).tag
        ∧ prev'.classes = (patchAttributes prev
            (next.removeAttr TypstPatchAttrs.ReuseFrom)).classes
        ∧ prev'.attrs = (patchAttributes prev
            (next.removeAttr TypstPatchAttrs.ReuseFrom)).attrs
        ∧ prev'.text = (patchAttributes prev
            (next.removeAttr TypstPatchAttrs.ReuseFrom)).text) := by
  rw [reuseOrPatchOutlineElem] at h
  by_cases hpage : prev.hasClass "typst-page"
  · simp only [hpage, ite_true, if_true] at h
    refine ⟨fun _ => ?_, fun hfalse => by rw [hpage] at hfalse; cases hfalse⟩
    split at h
    · split at h
      · cases h
      · split at h
        · cases h
          rfl
        · cases h
    · cases h
      rfl
  · have hpage' : prev.hasClass "typst-page" = false := by
      simpa using hpage
    simp only [hpage', Bool.false_eq_true, ite_false, if_false] at h
    refine ⟨fun htrue => ?_, fun _ => ?_⟩
    · rw [hpage'] at htrue
      cases htrue
    split at h
    · cases h
      exact ⟨rfl, rfl, rfl, rfl⟩
    · rcases hrec : patchOutlineChildren equalPatchElem patchAttributes
          interpretTargetView changeViewPerspective fuel pages
          (patchAttributes prev
            (next.removeAttr TypstPatchAttrs.ReuseFrom)).children
          (next.removeAttr TypstPatchAttrs.ReuseFrom).children
        with e | p
      · rw [hrec, except_bind_error] at h
        cases h
      · rcases p with ⟨pgs, cs'⟩
        rw [hrec, except_bind_ok] at h
        cases h
        simp [DomNode.tag_withChildren, DomNode.classes_withChildren,
          DomNode.attrs_withChildren, DomNode.text_withChildren]

theorem c6_witness :
    (reuseOrPatchOutlineElem (τ := OriginViewInstruction) (fun _ _ => true)
        (fun p _ => p) (fun _ _ _ => ([], [])) (fun _ tv => tv) (0 + 1)
        [] (DomNode.createElement "span") (DomNode.createElement "div")
      = .ok ([], DomNode.createElement "span", true))
    ∧ (((DomNode.createElement "span").hasClass "typst-page" = true →
          DomNode.createElement "span" = DomNode.createElement "span")
      ∧ ((DomNode.createElement "span").hasClass "typst-page" = false →
          (DomNode.createElement "span").tag
            = ((fun (p : DomNode) (_ : DomNode) => p)
                (DomNode.createElement "span")
                ((DomNode.createElement "div").removeAttr
                  TypstPatchAttrs.ReuseFrom)).tag
          ∧ (DomNode.createElement "span").classes
            = ((fun (p : DomNode) (_ : DomNode) => p)
                (DomNode.createElement "span")
                ((DomNode.createElement "div").removeAttr
                  TypstPatchAttrs.ReuseFrom)).classes
          ∧ (DomNode.createElement "span").attrs
            = ((fun (p : DomNode) (_ : DomNode) => p)
                (DomNode.createElement "span")
                ((DomNode.createElement "div").removeAttr
                  TypstPatchAttrs.ReuseFrom)).attrs
          ∧ (DomNode.createElement "span").text
            = ((fun (p : DomNode) (_ : DomNode) => p)
                (DomNode.createElement "span")
                ((DomNode.createElement "div").removeAttr
                  TypstPatchAttrs.ReuseFrom)).text)) := by
  have hval : reuseOrPatchOutlineElem (τ := OriginViewInstruction)
      (fun _ _ => true) (fun p _ => p) (fun _ _ _ => ([], []))
      (fun _ tv => tv) (0 + 1) [] (DomNode.createElement "span")
      (DomNode.createElement "div")
      = .ok ([], DomNode.createElement "span", true) := by
    rw [reuseOrPatchOutlineElem]
    simp [DomNode.hasClass, DomNode.classes, DomNode.createElement]
  exact ⟨hval, c6_attr_patch_frame (fun _ _ => true) (fun p _ => p)
    (fun _ _ _ => ([], [])) (fun _ tv => tv) 0 [] (DomNode.createElement "span")
    (DomNode.createElement "div") [] (DomNode.createElement "span") true hval⟩

theorem runOriginViewInstr_unknown (pages : List CanvasPage)
    (cs : List DomNode) (op : String) (off : Nat) (fr : NodeOrIdx)
    (h1 : ¬ op = "insert") (h2 : ¬ op = "swap_in") (h3 : ¬ op = "remove") :
    runOriginViewInstr pages cs ⟨op, off, fr⟩
      = .error ("unknown op " ++ op) := by
  rw [runOriginViewInstr]
  split <;> simp_all

/-- C8: the edit-script runner recognizes exactly the instruction kinds
insert, swap_in and remove: an instruction of any other kind makes the run
throw "unknown op" at once (aborting the pass with the remaining
instructions unprocessed), while the three recognized kinds can only fail
with their DOM TypeErrors, never with an unknown-op error. -/
theorem c8_unknown_edit_instruction (pages : List CanvasPage)
    (cs : List DomNode) (op : String) (off : Nat) (fr : NodeOrIdx)
    (rest : List OriginViewInstruction)
    (h1 : ¬ op = "insert") (h2 : ¬ op = "swap_in") (h3 : ¬ op = "remove") :
    runOriginViewInstructionsOnOutline pages cs
        ({ op := op, off := off, fr := fr } :: rest)
      = .error ("unknown op " ++ op)
    ∧ (∀ (pages' : List CanvasPage) (cs' : List DomNode) (off' : Nat)
        (fr' : NodeOrIdx) (msg : String),
        runOriginViewInstr pages' cs' { op := "insert", off := off', fr := fr' }
          = .error msg → msg = "TypeError: parameter 1 is not of type Node")
    ∧ (∀ (pages' : List CanvasPage) (cs' : List DomNode) (off' : Nat)
        (fr' : NodeOrIdx) (msg : String),
        runOriginViewInstr pages' cs' { op := "swap_in", off := off', fr := fr' }
          = .error msg → msg = "TypeError: parameter 1 is not of type Node")
    ∧ (∀ (pages' : List CanvasPage) (cs' : List DomNode) (off' : Nat)
        (fr' : NodeOrIdx) (msg : String),
        runOriginViewInstr pages' cs' { op := "remove", off := off', fr := fr' }
          = .error msg → msg = "TypeError: elem is undefined") := by
  refine ⟨?_, ?_, ?_, ?_⟩
  · rw [runOriginViewInstructionsOnOutline,
      runOriginViewInstr_unknown pages cs op off fr h1 h2 h3,
      except_bind_error]
  · intro pages' cs' off' fr' msg h
    rcases fr' with nd | j <;> simp only [runOriginViewInstr] at h
    · cases h
    · cases h
      rfl
  · intro pages' cs' off' fr' msg h
    rcases fr' with nd | j <;> simp only [runOriginViewInstr] at h
    · cases h
      rfl
    · split at h
      · cases h
      · cases h
        rfl
  · intro pages' cs' off' fr' msg h
    rcases hoff : cs'[off']? with _ | e <;>
      simp only [runOriginViewInstr, hoff] at h
    · cases h
      rfl
    · cases h

theorem c8_witness :
    (¬ "frobnicate" = "insert" ∧ ¬ "frobnicate" = "swap_in"
      ∧ ¬ "frobnicate" = "remove")
    ∧ runOriginViewInstructionsOnOutline [] []
        ({ op := "frobnicate", off := 0, fr := .idx 0 } :: [])
      = .error ("unknown op " ++ "frobnicate") :=
  ⟨⟨by decide, by decide, by decide⟩,
   (c8_unknown_edit_instruction [] [] "frobnicate" 0 (.idx 0) []
     (by decide) (by decide) (by decide)).1⟩

/-- C3: when edit-script execution removes a child that is a page node
(class typst-page) whose carried data-page-number parses to slot k, then:
if k is a valid registry slot the page record at k is rebound to the
removed node and its first element child before the node is detached
(recoverable removal); if k is out of range, no record is modified and the
node is simply detached, with no error raised in either case. -/
theorem c3_remove_recovers_page (pages : List CanvasPage) (cs : List DomNode)
    (off : Nat) (fr : NodeOrIdx) (e : DomNode) (str : String) (k : Nat)
    (hoff : cs[off]? = some e)
    (hclass : e.hasClass "typst-page" = true)
    (hattr : e.getAttr "data-page-number" = some str)
    (hparse : parseNat? str = some k) :
    (∀ (hlt : k < pages.length),
      runOriginViewInstr pages cs { op := "remove", off := off, fr := fr }
        = .ok (pages.set k { pages[k] with
            container := e,
            elem := e.firstElementChild }, cs.eraseIdx off))
    ∧ (pages.length ≤ k →
      runOriginViewInstr pages cs { op := "remove", off := off, fr := fr }
        = .ok (pages, cs.eraseIdx off)) := by
  constructor
  · intro hlt
    simp only [runOriginViewInstr, hoff, hclass, hattr, hparse,
      Option.some_bind, if_true, ite_true, dif_pos hlt]
  · intro hge
    have hlt' : ¬ k < pages.length := by omega
    simp only [runOriginViewInstr, hoff, hclass, hattr, hparse,
      Option.some_bind, if_true, ite_true, dif_neg hlt']

/-- Concrete removed page node for the C3 witness. -/
def removedPageFixture : DomNode :=
  (((DomNode.createElement "div").addClass "typst-page").setAttr
    "data-page-number" "0").withChildren [DomNode.createElement "canvas"]

theorem c3_witness :
    ([removedPageFixture][0]? = some removedPageFixture
      ∧ removedPageFixture.hasClass "typst-page" = true
      ∧ removedPageFixture.getAttr "data-page-number" = some "0"
      ∧ parseNat? "0" = some 0
      ∧ 0 < [pageFixture 0].length)
    ∧ runOriginViewInstr [pageFixture 0] [removedPageFixture]
        { op := "remove", off := 0, fr := .idx 0 }
      = .ok ([pageFixture 0].set 0 { [pageFixture 0][0] with
          container := removedPageFixture,
          elem := removedPageFixture.firstElementChild },
        ([removedPageFixture] : List DomNode).eraseIdx 0) :=
  ⟨⟨rfl, by decide, rfl, by decide, by decide⟩,
   (c3_remove_recovers_page [pageFixture 0] [removedPageFixture] 0 (.idx 0)
     removedPageFixture "0" 0 rfl (by decide) rfl (by decide)).1
     (by decide)⟩

/-- C10: the default inserter replaceStubToRealCanvas requires the record's
stub to be set: invoked with a pending stub it replaces the stub element
with the record's container in the host tree and clears the stub field, and
invoking the default inserter again on the resulting record dereferences an
undefined stub and throws — so it is safe to call at most once per record;
patchOutlineEntry arms it (without invoking it) on every record that has no
inserter yet. -/
theorem c10_default_inserter_single_use (t : CanvasPage) (host s : DomNode)
    (hs : t.stub = some s) :
    runInserter InserterKind.replaceStubToRealCanvas t host
      = .ok ({ t with stub := none }, replaceNode host s t.container)
    ∧ (∀ (host' : DomNode),
        runInserter InserterKind.replaceStubToRealCanvas
            { t with stub := none } host'
          = .error "TypeError: t.stub is undefined")
    ∧ (∀ {τ : Type} (equalPatchElem : DomNode → DomNode → Bool)
        (patchAttributes : DomNode → DomNode → DomNode)
        (interpretTargetView :
          List DomNode → List DomNode → Bool → List τ × List (Nat × Nat))
        (changeViewPerspective :
          List DomNode → List τ → List OriginViewInstruction)
        (fuel : Nat) (prev : DomNode) (pages : List CanvasPage)
        (items : List OutlineItemData) (prev' : DomNode)
        (pages' : List CanvasPage),
        patchOutlineEntry equalPatchElem patchAttributes interpretTargetView
            changeViewPerspective fuel prev pages items = .ok (prev', pages') →
        ∀ pg ∈ pages', pg.inserter.isSome = true) := by
  refine ⟨?_, ?_, ?_⟩
  · rw [runInserter, hs]
  · intro host'
    rw [runInserter]
  · intro τ E P itv cvp fuel prev pages items prev' pages' h pg hmem
    rw [patchOutlineEntry] at h
    by_cases hc : prev.children = []
    · rw [if_pos hc] at h
      simp only [except_pure, except_bind_ok] at h
      cases h
      simp only [List.mem_map] at hmem
      rcases hmem with ⟨pg0, _, hpg0⟩
      rw [← hpg0]
      rfl
    · rw [if_neg hc] at h
      rcases hpatch : patchOutlineChildren E P itv cvp fuel
          (genPhase pages items).pages prev.children
          (genPhase pages items).root.children with e | q
      · rw [hpatch, except_bind_error] at h
        cases h
      · rcases q with ⟨pgs1, cs1⟩
        rw [hpatch, except_bind_ok] at h
        simp only [except_pure, except_bind_ok] at h
        cases h
        simp only [List.mem_map] at hmem
        rcases hmem with ⟨pg0, _, hpg0⟩
        rw [← hpg0]
        rfl

/-- Concrete page record with a pending stub for the C10 witness. -/
def stubbedPageFixture : CanvasPage :=
  { pageFixture 0 with stub := some (stubElem 0) }

theorem c10_witness :
    stubbedPageFixture.stub = some (stubElem 0)
    ∧ runInserter InserterKind.replaceStubToRealCanvas stubbedPageFixture
        (DomNode.createElement "div")
      = .ok ({ stubbedPageFixture with stub := none },
        replaceNode (DomNode.createElement "div") (stubElem 0)
          stubbedPageFixture.container)
    ∧ (∀ (host' : DomNode),
        runInserter InserterKind.replaceStubToRealCanvas
            { stubbedPageFixture with stub := none } host'
          = .error "TypeError: t.stub is undefined") :=
  ⟨rfl,
   (c10_default_inserter_single_use stubbedPageFixture
     (DomNode.createElement "div") (stubElem 0) rfl).1,
   (c10_default_inserter_single_use stubbedPageFixture
     (DomNode.createElement "div") (stubElem 0) rfl).2.1⟩

/-- C9: after the generation pass every page record's stub field holds the
placeholder element built during that generation; when a page node is then
judged reused, the record at the parsed slot gets the throwing poison
inserter and a rebound container, while its stub field is left untouched —
so a reused page's record still appears to hold a pending stub while its
inserter must never be invoked. -/
theorem c9_reused_page_pending_stub_poisoned {τ : Type}
    (equalPatchElem : DomNode → DomNode → Bool)
    (patchAttributes : DomNode → DomNode → DomNode)
    (interpretTargetView :
      List DomNode → List DomNode → Bool → List τ × List (Nat × Nat))
    (changeViewPerspective :
      List DomNode → List τ → List OriginViewInstruction)
    (fuel : Nat) (pages : List CanvasPage) (prev next : DomNode)
    (k : Nat) (str : String)
    (hreuse : equalPatchElem prev next = true)
    (hpage : prev.hasClass "typst-page" = true)
    (hattr : (next.removeAttr TypstPatchAttrs.ReuseFrom).getAttr
      "data-page-number" = some str)
    (hparse : parseNat? str = some k)
    (hlen : k < pages.length) :
    (∀ (pages0 : List CanvasPage) (items : List OutlineItemData) (j : Nat)
      (pg : CanvasPage),
      (genPhase pages0 items).pages[j]? = some pg →
      pg.stub = some (stubElem pg.index))
    ∧ reuseOrPatchOutlineElem equalPatchElem patchAttributes
        interpretTargetView changeViewPerspective (fuel + 1) pages prev next
      = .ok (pages.set k { pages[k] with
          inserter := some .poisionCanvasMoved,
          container := prev,
          elem := prev.firstElementChild }, prev, true)
    ∧ ({ pages[k] with
          inserter := some .poisionCanvasMoved,
          container := prev,
          elem := prev.firstElementChild } : CanvasPage).stub = pages[k].stub
    ∧ (∀ (t : CanvasPage) (host : DomNode),
        runInserter InserterKind.poisionCanvasMoved t host
          = .error "never called moved canvas") := by
  refine ⟨?_, ?_, rfl, fun t host => rfl⟩
  · intro pages0 items j pg hget
    obtain ⟨hinv, hcore, hcnt⟩ := genPhase_spec pages0 items
    have hj : j < (genPhase pages0 items).pages.length := by
      by_contra hge
      rw [List.getElem?_eq_none (by omega)] at hget
      cases hget
    have hlen0 : (genPhase pages0 items).pages.length = pages0.length :=
      length_of_core hcore
    exact hinv.stubSet j pg (by omega) hget
  · rw [reuseOrPatchOutlineElem]
    simp only [hreuse, hpage, hattr, hparse, Option.some_bind, if_true,
      ite_true, hlen, dif_pos]

theorem c9_witness :
    ((fun (_ _ : DomNode) => true) pageNodeFixture (stubElem 0) = true
      ∧ pageNodeFixture.hasClass "typst-page" = true
      ∧ ((stubElem 0).removeAttr TypstPatchAttrs.ReuseFrom).getAttr
          "data-page-number" = some "0"
      ∧ parseNat? "0" = some 0
      ∧ 0 < [stubbedPageFixture].length)
    ∧ ((∀ (pages0 : List CanvasPage) (items : List OutlineItemData) (j : Nat)
        (pg : CanvasPage),
        (genPhase pages0 items).pages[j]? = some pg →
        pg.stub = some (stubElem pg.index))
      ∧ reuseOrPatchOutlineElem (τ := OriginViewInstruction)
          (fun _ _ => true) (fun p _ => p) (fun _ _ _ => ([], []))
          (fun _ tv => tv) (0 + 1) [stubbedPageFixture] pageNodeFixture
          (stubElem 0)
        = .ok ([stubbedPageFixture].set 0 { [stubbedPageFixture][0] with
            inserter := some .poisionCanvasMoved,
            container := pageNodeFixture,
            elem := pageNodeFixture.firstElementChild }, pageNodeFixture, true)
      ∧ ({ [stubbedPageFixture][0] with
            inserter := some .poisionCanvasMoved,
            container := pageNodeFixture,
            elem := pageNodeFixture.firstElementChild } : CanvasPage).stub
          = [stubbedPageFixture][0].stub
      ∧ (∀ (t : CanvasPage) (host : DomNode),
          runInserter InserterKind.poisionCanvasMoved t host
            = .error "never called moved canvas")) :=
  ⟨⟨rfl, by decide, by decide, by decide, by decide⟩,
   c9_reused_page_pending_stub_poisoned (fun _ _ => true) (fun p _ => p)
     (fun _ _ _ => ([], [])) (fun _ tv => tv) 0 [stubbedPageFixture]
     pageNodeFixture (stubElem 0) 0 "0" rfl (by decide) (by decide)
     (by decide) (by decide)⟩

/-- C7 counterexample: for a registry with one page of index 0 and an empty
outline, the single generated placeholder carries identity tag "canvas:0",
not "page:0" as the claim's "page:" prefix would require. -/
theorem c7_counterexample :
    docTags (genPhase [pageFixture 0] []).root = ["canvas:0"]
    ∧ ¬ docTags (genPhase [pageFixture 0] []).root = ["page:0"] := by
  have hval : docTags (genPhase [pageFixture 0] []).root = ["canvas:0"] := by
    simp [genPhase, generateItems, spliceCanvas, spliceLoop, pushCanvas,
      GenContext.init, stubElem, docTags, docTagsList, DomNode.appendAt,
      DomNode.setAttr, DomNode.createElement, pageFixture,
      TypstPatchAttrs.Tid, List.find?]
    decide
  exact ⟨hval, by rw [hval]; decide⟩

/-- C7 amended: every node generated by the target-tree builder carries a
stable identity tag — outline container divs are tagged
"outline:" ++ title (with matching reuse tag, the always-repatch flag, and
the title in data-title), their title spans "title:" ++ title (with
matching reuse tag and the always-repatch flag), and every page placeholder
"canvas:" ++ its page index (not "page:" ++ index), with the page index
additionally queryable from the data-page-number attribute and no
always-repatch flag. -/
theorem c7_node_tagging_contract :
    (∀ (pages : List CanvasPage) (items : List OutlineItemData),
      nodesAllList wellTaggedQ (genPhase pages items).root.children = true)
    ∧ (∀ (t : String) (level : Nat),
        (outlineDivWithTitle t level).getAttr TypstPatchAttrs.Tid
          = some ("outline:" ++ t)
        ∧ (outlineDivWithTitle t level).getAttr TypstPatchAttrs.ReuseFrom
          = some ("outline:" ++ t)
        ∧ (outlineDivWithTitle t level).getAttr TypstPatchAttrs.BadEquality
          = some "1"
        ∧ (outlineDivWithTitle t level).getAttr "data-title" = some t
        ∧ (outlineDivWithTitle t level).children.map
            (fun c => c.getAttr TypstPatchAttrs.Tid) = [some ("title:" ++ t)]
        ∧ (outlineDivWithTitle t level).children.map
            (fun c => c.getAttr TypstPatchAttrs.BadEquality) = [some "1"])
    ∧ (∀ (i : Nat),
        (stubElem i).getAttr TypstPatchAttrs.Tid
          = some ("canvas:" ++ toString i)
        ∧ (stubElem i).getAttr "data-page-number" = some (toString i)
        ∧ (stubElem i).getAttr TypstPatchAttrs.ReuseFrom = none
        ∧ (stubElem i).getAttr TypstPatchAttrs.BadEquality = none) := by
  refine ⟨fun pages items => (genPhase_spec pages items).1.tagged,
    fun t level => ?_, fun i => ?_⟩
  · simp [outlineDivWithTitle, tagPatchId, DomNode.setAttr, DomNode.addClass,
      DomNode.setText, DomNode.createElement, DomNode.withChildren,
      DomNode.getAttr, DomNode.attrs, DomNode.children, TypstPatchAttrs.Tid,
      TypstPatchAttrs.ReuseFrom, TypstPatchAttrs.BadEquality, List.find?]
  · simp [stubElem, DomNode.setAttr, DomNode.createElement, DomNode.getAttr,
      DomNode.attrs, TypstPatchAttrs.Tid, TypstPatchAttrs.ReuseFrom,
      TypstPatchAttrs.BadEquality, List.find?]

/-- First-render branch of patchOutlineEntry: with no previous children the
target root's children are adopted directly and every record without an
inserter gets the default one. -/
theorem patchOutlineEntry_first_render {τ : Type}
    (equalPatchElem : DomNode → DomNode → Bool)
    (patchAttributes : DomNode → DomNode → DomNode)
    (interpretTargetView :
      List DomNode → List DomNode → Bool → List τ × List (Nat × Nat))
    (changeViewPerspective :
      List DomNode → List τ → List OriginViewInstruction)
    (fuel : Nat) (prev : DomNode) (pages : List CanvasPage)
    (items : List OutlineItemData) (h : prev.children = []) :
    patchOutlineEntry equalPatchElem patchAttributes interpretTargetView
        changeViewPerspective fuel prev pages items
      = .ok (prev.withChildren
          (prev.children ++ (genPhase pages items).root.children),
        (genPhase pages items).pages.map (fun page =>
          { page with
            inserter := some (page.inserter.getD .replaceStubToRealCanvas) })) := by
  rw [patchOutlineEntry, if_pos h]
  simp only [except_pure, except_bind_ok]

/-- Concrete scenario of the spec: two top-level items A (page 1) and
B (page 3) over a three-page registry (0-based indices 0, 1, 2 standing for
pages 1, 2, 3). -/
def pagesABC : List CanvasPage := [pageFixture 0, pageFixture 1, pageFixture 2]

def itemA : OutlineItemData := .mk "A" (some ⟨1, 0, 0⟩) []

def itemB : OutlineItemData := .mk "B" (some ⟨3, 0, 0⟩) []

theorem c4_scenario_eval : docTags (genPhase pagesABC [itemA, itemB]).root
    = ["outline:A", "title:A", "canvas:0", "canvas:1", "outline:B",
       "title:B", "canvas:2"] := by
  simp [genPhase, generateItems, generate, generateChildren, spliceCanvas,
    spliceLoop, pushCanvas, GenContext.init, outlineDivWithTitle, tagPatchId,
    stubElem, DomNode.appendAt, DomNode.setAttr, DomNode.addClass,
    DomNode.setText, DomNode.createElement, DomNode.withChildren, docTags,
    docTagsList, pagesABC, itemA, itemB, pageFixture, TypstPatchAttrs.Tid,
    TypstPatchAttrs.ReuseFrom, TypstPatchAttrs.BadEquality, List.find?]
  decide

/-- C4 counterexample: for the scenario outline A(page 1), B(page 3) with
three pages, the target tree in document order carries the placeholders for
pages 1 and 2 (slots 0 and 1) before B — inside A's subtree — so the
document-order sequence is A, page 1, page 2, B, page 3, not the claimed
A, page 1, B, page 2, page 3. -/
theorem c4_counterexample :
    docTags (genPhase pagesABC [itemA, itemB]).root
      = ["outline:A", "title:A", "canvas:0", "canvas:1", "outline:B",
         "title:B", "canvas:2"]
    ∧ ¬ docTags (genPhase pagesABC [itemA, itemB]).root
      = ["outline:A", "title:A", "canvas:0", "outline:B", "title:B",
         "canvas:1", "canvas:2"] :=
  ⟨c4_scenario_eval, by rw [c4_scenario_eval]; decide⟩

/-- C4 amended: for the scenario outline A(page 1), B(page 3) with
pageCount 3, the constructed target tree read in document order is
A, page 1, page 2, B, page 3 (the placeholders for pages 1 and 2 are
emitted inside A's subtree, before B); a first render against an empty
previous root adopts exactly the target root's top-level children — the
entry containers A and B, with the placeholders nested inside them — as the
previous root's children. -/
theorem c4_scenario_order_and_adoption :
    docTags (genPhase pagesABC [itemA, itemB]).root
      = ["outline:A", "title:A", "canvas:0", "canvas:1", "outline:B",
         "title:B", "canvas:2"]
    ∧ patchOutlineEntry (τ := OriginViewInstruction) specEqualPatchElem
        specPatchAttributes specInterpretTargetView specChangeViewPerspective
        1 (DomNode.createElement "div") pagesABC [itemA, itemB]
      = .ok ((DomNode.createElement "div").withChildren
          ((DomNode.createElement "div").children
            ++ (genPhase pagesABC [itemA, itemB]).root.children),
        (genPhase pagesABC [itemA, itemB]).pages.map (fun page =>
          { page with
            inserter := some (page.inserter.getD .replaceStubToRealCanvas) }))
    ∧ ((DomNode.createElement "div").withChildren
          ((DomNode.createElement "div").children
            ++ (genPhase pagesABC [itemA, itemB]).root.children)).children
        = (genPhase pagesABC [itemA, itemB]).root.children
    ∧ (genPhase pagesABC [itemA, itemB]).root.children.map
        (fun c => c.getAttr TypstPatchAttrs.Tid)
      = [some "outline:A", some "outline:B"] := by
  refine ⟨c4_scenario_eval,
    patchOutlineEntry_first_render specEqualPatchElem specPatchAttributes
      specInterpretTargetView specChangeViewPerspective 1
      (DomNode.createElement "div") pagesABC [itemA, itemB] rfl, rfl, ?_⟩
  simp [genPhase, generateItems, generate, generateChildren, spliceCanvas,
    spliceLoop, pushCanvas, GenContext.init, outlineDivWithTitle, tagPatchId,
    stubElem, DomNode.appendAt, DomNode.setAttr, DomNode.addClass,
    DomNode.setText, DomNode.createElement, DomNode.withChildren,
    DomNode.getAttr, DomNode.attrs, DomNode.children, pagesABC, itemA, itemB,
    pageFixture, TypstPatchAttrs.Tid, TypstPatchAttrs.ReuseFrom,
    TypstPatchAttrs.BadEquality, List.find?]

mutual

/-- What reuseOrPatchOutlineElem makes of a node matched against an
identical copy of itself under the spec-modelled collaborators: the reuse
tag is stripped by the attribute patch; reused nodes (no always-repatch
flag) keep their children untouched, always-repatch nodes descend. -/
def selfPatched : DomNode → DomNode
  | .mk t c a x cs =>
      if (attrLookup TypstPatchAttrs.BadEquality a).isNone then
        .mk t c (a.filter (fun p => ¬ p.1 = TypstPatchAttrs.ReuseFrom)) x cs
      else
        .mk t c (a.filter (fun p => ¬ p.1 = TypstPatchAttrs.ReuseFrom)) x
          (selfPatchedList cs)

def selfPatchedList : List DomNode → List DomNode
  | [] => []
  | c :: cs => selfPatched c :: selfPatchedList cs

end

theorem selfPatchedList_eq_map :
    ∀ (cs : List DomNode), selfPatchedList cs = cs.map selfPatched
  | [] => rfl
  | c :: cs => by rw [selfPatchedList, List.map_cons, selfPatchedList_eq_map]

theorem attrLookup_filter_ne (a : List (String × String)) (k k' : String)
    (h : ¬ k = k') :
    attrLookup k (a.filter (fun p => ¬ p.1 = k')) = attrLookup k a := by
  induction a with
  | nil => rfl
  | cons p a ih =>
      by_cases hp : p.1 = k'
      · rw [show (p :: a).filter (fun p => ¬ p.1 = k')
            = a.filter (fun p => ¬ p.1 = k') by simp [List.filter, hp]]
        rw [ih]
        have hpk : ¬ p.1 = k := by rw [hp]; intro hc; exact h hc.symm
        simp [attrLookup, List.find?, hpk]
      · rw [show (p :: a).filter (fun p => ¬ p.1 = k')
            = p :: a.filter (fun p => ¬ p.1 = k') by simp [List.filter, hp]]
        by_cases hpk : p.1 = k
        · simp [attrLookup, List.find?, hpk]
        · simp only [attrLookup, List.find?] at ih ⊢
          simp only [show (decide (p.1 = k)) = false by simpa using hpk]
          exact ih

theorem getAttr_selfPatched_tid (c : DomNode) :
    (selfPatched c).getAttr TypstPatchAttrs.Tid
      = c.getAttr TypstPatchAttrs.Tid := by
  cases c with
  | mk t cl a x cs =>
      rw [selfPatched]
      split <;>
      · show attrLookup TypstPatchAttrs.Tid
            (a.filter (fun p => ¬ p.1 = TypstPatchAttrs.ReuseFrom))
          = attrLookup TypstPatchAttrs.Tid a
        exact attrLookup_filter_ne a _ _ (by decide)

theorem nodesAllList_mem {Q : NodeQ} :
    ∀ {cs : List DomNode}, nodesAllList Q cs = true →
      ∀ c ∈ cs, nodesAll Q c = true := by
  intro cs
  induction cs with
  | nil => intro _ c hc; cases hc
  | cons c0 cs ih =>
      intro h c hc
      rw [nodesAllList, Bool.and_eq_true] at h
      rw [List.mem_cons] at hc
      rcases hc with hc | hc
      · rw [hc]
        exact h.1
      · exact ih h.2 c hc

theorem domDepth_mem : ∀ {cs : List DomNode}, ∀ c ∈ cs,
    domDepth c ≤ domDepthList cs := by
  intro cs
  induction cs with
  | nil => intro c hc; cases hc
  | cons c0 cs ih =>
      intro c hc
      rw [domDepthList]
      rw [List.mem_cons] at hc
      rcases hc with hc | hc
      · rw [hc]
        omega
      · have := ih c hc
        omega

theorem patchPairs_diag (f : Nat) (cs : List DomNode)
    (hpt : ∀ c ∈ cs, ∀ (pgs : List CanvasPage),
      reuseOrPatchOutlineElem specEqualPatchElem specPatchAttributes
        specInterpretTargetView specChangeViewPerspective f pgs c c
        = .ok (pgs, selfPatched c,
            (c.getAttr TypstPatchAttrs.BadEquality).isNone)) :
    ∀ (count i : Nat) (pages : List CanvasPage), i + count = cs.length →
    patchPairs specEqualPatchElem specPatchAttributes specInterpretTargetView
      specChangeViewPerspective f pages
      ((cs.take i).map selfPatched ++ cs.drop i) cs
      ((List.range' i count).map (fun j => (j, j)))
      = .ok (pages, cs.map selfPatched) := by
  intro count
  induction count with
  | zero =>
      intro i pages hlen
      have hi : i = cs.length := by omega
      subst hi
      rw [show List.range' cs.length 0 = [] from rfl]
      rw [List.map_nil, patchPairs, List.take_length, List.drop_length,
        List.append_nil]
  | succ count ih =>
      intro i pages hlen
      have hi : i < cs.length := by omega
      rw [List.range'_succ, List.map_cons]
      have hlen1 : ((cs.take i).map selfPatched).length = i := by
        simp [List.length_map, List.length_take]
        omega
      have hget : ((cs.take i).map selfPatched ++ cs.drop i)[i]?
          = some cs[i] := by
        rw [List.getElem?_append_right (by omega), hlen1,
          Nat.sub_self, List.getElem?_drop]
        exact List.getElem?_eq_getElem (by omega)
      have hget2 : cs[i]? = some cs[i] := List.getElem?_eq_getElem hi
      have hstep : patchPairs specEqualPatchElem specPatchAttributes
          specInterpretTargetView specChangeViewPerspective f pages
          ((cs.take i).map selfPatched ++ cs.drop i) cs
          ((i, i) :: (List.range' (i + 1) count).map (fun j => (j, j)))
          = (do
              let d ← reuseOrPatchOutlineElem specEqualPatchElem
                specPatchAttributes specInterpretTargetView
                specChangeViewPerspective f pages cs[i] cs[i]
              match d with
              | (pages', p', _) =>
                  patchPairs specEqualPatchElem specPatchAttributes
                    specInterpretTargetView specChangeViewPerspective f pages'
                    (((cs.take i).map selfPatched ++ cs.drop i).set i p') cs
                    ((List.range' (i + 1) count).map (fun j => (j, j)))) := by
        rw [patchPairs, hget, hget2]
      rw [hstep, hpt cs[i] (List.getElem_mem hi) pages, except_bind_ok]
      have hset : ((cs.take i).map selfPatched ++ cs.drop i).set i
            (selfPatched cs[i])
          = (cs.take (i + 1)).map selfPatched ++ cs.drop (i + 1) := by
        rw [List.set_append, if_neg (by omega), hlen1, Nat.sub_self,
          List.drop_eq_getElem_cons hi]
        rw [show (cs[i] :: cs.drop (i + 1)).set 0 (selfPatched cs[i])
            = selfPatched cs[i] :: cs.drop (i + 1) from rfl]
        rw [List.take_succ, hget2]
        simp only [List.map_append, Option.toList_some, List.take_succ,
          List.getElem?_map, hget2, Option.map_some, List.append_assoc,
          List.map_take]
        rfl
      show patchPairs specEqualPatchElem specPatchAttributes
          specInterpretTargetView specChangeViewPerspective f pages
          (((cs.take i).map selfPatched ++ cs.drop i).set i
            (selfPatched cs[i])) cs
          ((List.range' (i + 1) count).map (fun j => (j, j)))
          = .ok (pages, cs.map selfPatched)
      rw [hset]
      exact ih (i + 1) pages (by omega)

theorem patchChildren_diag (f : Nat) (cs : List DomNode)
    (pages : List CanvasPage)
    (hpt : ∀ c ∈ cs, ∀ (pgs : List CanvasPage),
      reuseOrPatchOutlineElem specEqualPatchElem specPatchAttributes
        specInterpretTargetView specChangeViewPerspective f pgs c c
        = .ok (pgs, selfPatched c,
            (c.getAttr TypstPatchAttrs.BadEquality).isNone)) :
    patchOutlineChildren specEqualPatchElem specPatchAttributes
      specInterpretTargetView specChangeViewPerspective (f + 1) pages cs cs
      = .ok (pages, cs.map selfPatched) := by
  have hitv : specInterpretTargetView cs cs false
      = ([], (List.range cs.length).map (fun i => (i, i))) := by
    rw [specInterpretTargetView, if_pos rfl]
  have hstep : patchOutlineChildren specEqualPatchElem specPatchAttributes
      specInterpretTargetView specChangeViewPerspective (f + 1) pages cs cs
      = (do
          let d ← patchPairs specEqualPatchElem specPatchAttributes
            specInterpretTargetView specChangeViewPerspective f pages cs cs
            ((List.range cs.length).map (fun i => (i, i)))
          match d with
          | (pages', prevCs') =>
              runOriginViewInstructionsOnOutline pages' prevCs'
                (specChangeViewPerspective prevCs' [])) := by
    rw [patchOutlineChildren, hitv]
  have hpairs := patchPairs_diag f cs hpt cs.length 0 pages (by omega)
  rw [List.take_zero, List.map_nil, List.nil_append, List.drop_zero,
    ← List.range_eq_range'] at hpairs
  rw [hstep, hpairs, except_bind_ok]
  show runOriginViewInstructionsOnOutline pages (cs.map selfPatched)
      (specChangeViewPerspective (cs.map selfPatched) []) = _
  rw [show specChangeViewPerspective (cs.map selfPatched) [] = [] from rfl,
    runOriginViewInstructionsOnOutline]

theorem reuseOrPatch_self_mutual :
    (∀ (c : DomNode), ∀ (f : Nat) (pgs : List CanvasPage),
      nodesAll noPageClassQ c = true → 2 * domDepth c ≤ f →
      reuseOrPatchOutlineElem specEqualPatchElem specPatchAttributes
        specInterpretTargetView specChangeViewPerspective f pgs c c
        = .ok (pgs, selfPatched c,
            (c.getAttr TypstPatchAttrs.BadEquality).isNone))
    ∧ (∀ (cs : List DomNode), ∀ c ∈ cs, ∀ (f : Nat) (pgs : List CanvasPage),
      nodesAll noPageClassQ c = true → 2 * domDepth c ≤ f →
      reuseOrPatchOutlineElem specEqualPatchElem specPatchAttributes
        specInterpretTargetView specChangeViewPerspective f pgs c c
        = .ok (pgs, selfPatched c,
            (c.getAttr TypstPatchAttrs.BadEquality).isNone)) := by
  apply selfPatched.mutual_induct
    (fun c => ∀ (f : Nat) (pgs : List CanvasPage),
      nodesAll noPageClassQ c = true → 2 * domDepth c ≤ f →
      reuseOrPatchOutlineElem specEqualPatchElem specPatchAttributes
        specInterpretTargetView specChangeViewPerspective f pgs c c
        = .ok (pgs, selfPatched c,
            (c.getAttr TypstPatchAttrs.BadEquality).isNone))
    (fun cs => ∀ c ∈ cs, ∀ (f : Nat) (pgs : List CanvasPage),
      nodesAll noPageClassQ c = true → 2 * domDepth c ≤ f →
      reuseOrPatchOutlineElem specEqualPatchElem specPatchAttributes
        specInterpretTargetView specChangeViewPerspective f pgs c c
        = .ok (pgs, selfPatched c,
            (c.getAttr TypstPatchAttrs.BadEquality).isNone))
  · intro t cl a x cs hbe f pgs hnop hf
    obtain ⟨f', rfl⟩ : ∃ f', f = f' + 1 := by
      rw [domDepth] at hf
      exact ⟨f - 1, by omega⟩
    have hbeq : specEqualPatchElem (DomNode.mk t cl a x cs)
        (DomNode.mk t cl a x cs) = true := by
      rw [specEqualPatchElem]
      simp only [beq_self_eq_true, Bool.true_and]
      exact hbe
    have hpageF : (DomNode.mk t cl a x cs).hasClass "typst-page" = false := by
      rw [nodesAll, Bool.and_eq_true] at hnop
      have := hnop.1
      rw [noPageClassQ] at this
      simpa [DomNode.hasClass, DomNode.classes] using this
    rw [reuseOrPatchOutlineElem]
    simp only [hbeq, hpageF, if_true, ite_true, Bool.false_eq_true, if_false,
      ite_false]
    rw [selfPatched, if_pos hbe]
    rw [show (DomNode.mk t cl a x cs).getAttr TypstPatchAttrs.BadEquality
        = attrLookup TypstPatchAttrs.BadEquality a from rfl]
    rw [hbe]
    rfl
  · intro t cl a x cs hbe ih f pgs hnop hf
    obtain ⟨f', rfl⟩ : ∃ f', f = f' + 2 := by
      rw [domDepth] at hf
      exact ⟨f - 2, by omega⟩
    have hbe' : (attrLookup TypstPatchAttrs.BadEquality a).isNone = false := by
      rw [Bool.eq_false_iff]
      exact hbe
    have hbeq : specEqualPatchElem (DomNode.mk t cl a x cs)
        (DomNode.mk t cl a x cs) = false := by
      rw [specEqualPatchElem]
      simp only [beq_self_eq_true, Bool.true_and]
      exact hbe'
    rw [nodesAll, Bool.and_eq_true] at hnop
    have hpageF : (DomNode.mk t cl a x cs).hasClass "typst-page" = false := by
      have := hnop.1
      rw [noPageClassQ] at this
      simpa [DomNode.hasClass, DomNode.classes] using this
    have hpt : ∀ c ∈ cs, ∀ (pgs' : List CanvasPage),
        reuseOrPatchOutlineElem specEqualPatchElem specPatchAttributes
          specInterpretTargetView specChangeViewPerspective f' pgs' c c
          = .ok (pgs', selfPatched c,
              (c.getAttr TypstPatchAttrs.BadEquality).isNone) := by
      intro c hc pgs'
      have hd : domDepth c ≤ domDepthList cs := domDepth_mem c hc
      have hfc : 2 * domDepth c ≤ f' := by
        rw [domDepth] at hf
        omega
      exact ih c hc f' pgs' (nodesAllList_mem hnop.2 c hc) hfc
    rw [reuseOrPatchOutlineElem]
    simp only [hbeq, hpageF, Bool.false_eq_true, if_false, ite_false]
    have hrec := patchChildren_diag f' cs pgs hpt
    have hchild : (specPatchAttributes (DomNode.mk t cl a x cs)
        ((DomNode.mk t cl a x cs).removeAttr
          TypstPatchAttrs.ReuseFrom)).children = cs := rfl
    have hchild2 : ((DomNode.mk t cl a x cs).removeAttr
        TypstPatchAttrs.ReuseFrom).children = cs := rfl
    rw [hchild, hchild2, hrec, except_bind_ok]
    rw [selfPatched, if_neg hbe]
    rw [show (DomNode.mk t cl a x cs).getAttr TypstPatchAttrs.BadEquality
        = attrLookup TypstPatchAttrs.BadEquality a from rfl]
    rw [show (attrLookup TypstPatchAttrs.BadEquality a).isNone = false
      from hbe']
    rw [selfPatchedList_eq_map]
    rfl
  · intro c hc
    cases hc
  · intro c cs ih1 ih2 c' hc'
    rw [List.mem_cons] at hc'
    rcases hc' with hc' | hc'
    · rw [hc']
      exact ih1
    · exact ih2 c' hc'

/-- Relation between two generation states that differ at most in the
non-index fields of their page records: generation reads the registry only
through the index field, so it preserves this relation. -/
structure GenRel (s s' : GenContext) : Prop where
  root : s'.root = s.root
  cnt : s'.populateCnt = s.populateCnt
  ip : s'.insertionPoint = s.insertionPoint
  par : s'.parent = s.parent
  lv : s'.lastVisit = s.lastVisit
  idx : s'.pages.map (fun pg => pg.index) = s.pages.map (fun pg => pg.index)

theorem GenRel.len {s s' : GenContext} (h : GenRel s s') :
    s'.pages.length = s.pages.length := by
  have := congrArg List.length h.idx
  simpa using this

theorem pushCanvas_rel {s s' : GenContext} (h : GenRel s s') (d k : Nat) :
    GenRel (pushCanvas s d k) (pushCanvas s' d k) := by
  have hmap : s'.pages[k]?.map (fun pg => pg.index)
      = s.pages[k]?.map (fun pg => pg.index) := by
    rw [← List.getElem?_map, ← List.getElem?_map, h.idx]
  rcases hk : s.pages[k]? with _ | pg
  · rcases hk' : s'.pages[k]? with _ | pg'
    · rw [pushCanvas, pushCanvas, hk, hk']
      exact h
    · rw [hk, hk'] at hmap
      cases hmap
  · rcases hk' : s'.pages[k]? with _ | pg'
    · rw [hk, hk'] at hmap
      cases hmap
    · rw [hk, hk'] at hmap
      have hidx : pg'.index = pg.index := by
        simpa using hmap
      rw [pushCanvas, pushCanvas, hk, hk']
      constructor
      · show s'.root.appendAt d (stubElem pg'.index)
          = s.root.appendAt d (stubElem pg.index)
        rw [h.root, hidx]
      · exact h.cnt
      · exact h.ip
      · exact h.par
      · exact h.lv
      · show (s'.pages.set k { pg' with stub := some (stubElem pg'.index) }).map
            (fun pg => pg.index)
          = (s.pages.set k { pg with stub := some (stubElem pg.index) }).map
            (fun pg => pg.index)
        rw [List.map_set, List.map_set, h.idx]
        show (s.pages.map (fun pg => pg.index)).set k pg'.index = _
        rw [hidx]

theorem spliceLoop_rel : ∀ (n i u d : Nat) {s s' : GenContext},
    u - i = n → GenRel s s' →
    GenRel (spliceLoop d i u s) (spliceLoop d i u s') := by
  intro n
  induction n with
  | zero =>
      intro i u d s s' hn h
      rw [spliceLoop, if_neg (by omega), spliceLoop, if_neg (by omega)]
      exact h
  | succ n ih =>
      intro i u d s s' hn h
      have hlt : i < u := by omega
      have hstep : ∀ (t : GenContext), spliceLoop d i u t
          = spliceLoop d (i + 1) u (pushCanvas t d (i - 1)) := by
        intro t
        conv_lhs => rw [spliceLoop]
        rw [if_pos hlt]
      rw [hstep s, hstep s']
      exact ih (i + 1) u d (by omega) (pushCanvas_rel h d (i - 1))

theorem spliceCanvas_rel {s s' : GenContext} (h : GenRel s s') (d u : Nat) :
    GenRel (spliceCanvas s d u) (spliceCanvas s' d u) := by
  rw [spliceCanvas, spliceCanvas]
  have hlen : s'.pages.length = s.pages.length := h.len
  rw [hlen, h.cnt]
  have hloop := spliceLoop_rel (min u (s.pages.length + 1) - s.populateCnt)
    s.populateCnt (min u (s.pages.length + 1)) d rfl h
  exact ⟨hloop.root, by rw [hloop.cnt], hloop.ip, hloop.par, hloop.lv,
    hloop.idx⟩

theorem generate_rel_mutual :
    (∀ (item : OutlineItemData) (level : Nat) (s : GenContext),
      ∀ (s' : GenContext), GenRel s s' →
      GenRel (generate item level s).1 (generate item level s').1
        ∧ (generate item level s).2 = (generate item level s').2)
    ∧ (∀ (items : List OutlineItemData) (level : Nat) (s : GenContext),
      ∀ (s' : GenContext), GenRel s s' →
      GenRel (generateChildren items level s)
        (generateChildren items level s')) := by
  apply generate.mutual_induct
    (fun item level s => ∀ (s' : GenContext), GenRel s s' →
      GenRel (generate item level s).1 (generate item level s').1
        ∧ (generate item level s).2 = (generate item level s').2)
    (fun items level s => ∀ (s' : GenContext), GenRel s s' →
      GenRel (generateChildren items level s)
        (generateChildren items level s'))
  · intro level s t position children pos s1 dNode s2 s3 ih s' hrel
    have r1 : GenRel s1 (spliceCanvas s' s'.insertionPoint pos) := by
      rw [hrel.ip]
      exact spliceCanvas_rel hrel s.insertionPoint pos
    have r3 : GenRel s3
        { spliceCanvas s' s'.insertionPoint pos with
          root := (spliceCanvas s' s'.insertionPoint pos).root.appendAt
            (spliceCanvas s' s'.insertionPoint pos).parent
            (outlineDivWithTitle t level),
          lastVisit := some ((spliceCanvas s' s'.insertionPoint pos).parent + 1),
          parent := (spliceCanvas s' s'.insertionPoint pos).parent + 1,
          insertionPoint :=
            (spliceCanvas s' s'.insertionPoint pos).parent + 1 } := by
      constructor
      · show (spliceCanvas s' s'.insertionPoint pos).root.appendAt
            (spliceCanvas s' s'.insertionPoint pos).parent
            (outlineDivWithTitle t level)
          = s1.root.appendAt s1.parent (outlineDivWithTitle t level)
        rw [r1.root, r1.par]
      · exact r1.cnt
      · show (spliceCanvas s' s'.insertionPoint pos).parent + 1
          = s1.parent + 1
        rw [r1.par]
      · show (spliceCanvas s' s'.insertionPoint pos).parent + 1
          = s1.parent + 1
        rw [r1.par]
      · show some ((spliceCanvas s' s'.insertionPoint pos).parent + 1)
          = some (s1.parent + 1)
        rw [r1.par]
      · exact r1.idx
    have r4 := ih _ r3
    constructor
    · simp only [generate]
      constructor
      · exact r4.root
      · exact r4.cnt
      · show (spliceCanvas s' s'.insertionPoint pos).insertionPoint
          = s1.insertionPoint
        exact r1.ip
      · show (spliceCanvas s' s'.insertionPoint pos).parent = s1.parent
        exact r1.par
      · exact r4.lv
      · exact r4.idx
    · simp only [generate]
      show s1.parent + 1 = (spliceCanvas s' s'.insertionPoint pos).parent + 1
      rw [r1.par]
  · intro level s s' hrel
    simp only [generateChildren]
    exact hrel
  · intro level s ch rest sMid dMid heq ih1 ih2 s' hrel
    have h1 := ih1 s' hrel
    rw [heq] at h1
    rcases hg' : generate ch level s' with ⟨sMid', dMid'⟩
    rw [hg'] at h1
    simp only [generateChildren, heq, hg']
    have rmid : GenRel ({ sMid with insertionPoint := dMid } : GenContext)
        ({ sMid' with insertionPoint := dMid' } : GenContext) := by
      constructor
      · exact h1.1.root
      · exact h1.1.cnt
      · show dMid' = dMid
        exact h1.2.symm
      · exact h1.1.par
      · exact h1.1.lv
      · exact h1.1.idx
    exact ih2 _ rmid

theorem generateItems_rel (items : List OutlineItemData) :
    ∀ {s s' : GenContext}, GenRel s s' →
    GenRel (generateItems items s) (generateItems items s') := by
  induction items with
  | nil =>
      intro s s' h
      simp only [generateItems]
      exact h
  | cons item rest ih =>
      intro s s' h
      have h1 := generate_rel_mutual.1 item 1 s s' h
      rcases hg : generate item 1 s with ⟨a, b⟩
      rcases hg' : generate item 1 s' with ⟨a', b'⟩
      rw [hg, hg'] at h1
      simp only [generateItems, hg, hg']
      refine ih ⟨h1.1.root, h1.1.cnt, h1.2.symm, h1.1.par, h1.1.lv, h1.1.idx⟩

/-- The whole generation pass depends on the page registry only through the
index fields. -/
theorem genPhase_rel {pages pages' : List CanvasPage}
    (h : pages'.map (fun pg => pg.index) = pages.map (fun pg => pg.index))
    (items : List OutlineItemData) :
    GenRel (genPhase pages items) (genPhase pages' items) := by
  have h0 : GenRel (GenContext.init pages) (GenContext.init pages') :=
    ⟨rfl, rfl, rfl, rfl, rfl, h⟩
  have h1 := generateItems_rel items h0
  simp only [genPhase]
  rw [show (generateItems items (GenContext.init pages')).lastVisit
      = (generateItems items (GenContext.init pages)).lastVisit from h1.lv,
    show (generateItems items (GenContext.init pages')).pages.length
      = (generateItems items (GenContext.init pages)).pages.length
      from h1.len]
  exact spliceCanvas_rel h1 _ _

theorem map_idx_of_core {l l' : List CanvasPage}
    (h : l.map pageCore = l'.map pageCore) :
    l.map (fun pg => pg.index) = l'.map (fun pg => pg.index) := by
  have h2 := congrArg (List.map (fun q :
      Nat × Nat × Nat × DomNode × Option DomNode × Option InserterKind =>
      q.1)) h
  simpa [List.map_map, Function.comp_def, pageCore] using h2

theorem map_arm_index (l : List CanvasPage) :
    (l.map (fun page => { page with
        inserter := some (page.inserter.getD
          InserterKind.replaceStubToRealCanvas) })).map (fun pg => pg.index)
    = l.map (fun pg => pg.index) := by
  simp [List.map_map, Function.comp_def]

theorem map_arm_inserter (l : List CanvasPage) :
    (l.map (fun page => { page with
        inserter := some (page.inserter.getD
          InserterKind.replaceStubToRealCanvas) })).map (fun pg => pg.inserter)
    = (l.map (fun pg => pg.inserter)).map
        (fun o => some (o.getD InserterKind.replaceStubToRealCanvas)) := by
  simp [List.map_map, Function.comp_def]

theorem map_some_getD_idem (ol : List (Option InserterKind)) :
    (ol.map (fun o => some (o.getD InserterKind.replaceStubToRealCanvas))).map
      (fun o => some (o.getD InserterKind.replaceStubToRealCanvas))
    = ol.map (fun o => some (o.getD InserterKind.replaceStubToRealCanvas)) := by
  simp [List.map_map, Function.comp_def, Option.getD_some]

theorem DomNode.children_withChildren (n : DomNode) (cs : List DomNode) :
    (n.withChildren cs).children = cs := by cases n; rfl

theorem map_tid_selfPatched (cs : List DomNode) :
    (cs.map selfPatched).map (fun c => c.getAttr TypstPatchAttrs.Tid)
      = cs.map (fun c => c.getAttr TypstPatchAttrs.Tid) := by
  rw [List.map_map]
  apply List.map_congr_left
  intro c _
  exact getAttr_selfPatched_tid c

/-- C5: a first render (patchOutlineEntry against a previous root with no
children) followed by a second patchOutlineEntry with the same outline items
and the same page registry leaves the previous root's child count and child
order (by identity tags) unchanged, and the second pass leaves every page
record's inserter exactly as the first pass armed it — no record is
poisoned and none is re-armed, and no code path of patchOutlineEntry ever
invokes an inserter.  The alignment and equality collaborators are the
spec-modelled ones; the fuel is any amount sufficient for the tree depth. -/
theorem c5_first_render_idempotent
    (items : List OutlineItemData) (pages : List CanvasPage)
    (prev prev1 : DomNode) (pages1 : List CanvasPage)
    (hprev : prev.children = [])
    (h1 : patchOutlineEntry (τ := OriginViewInstruction) specEqualPatchElem
      specPatchAttributes specInterpretTargetView specChangeViewPerspective
      (2 * domDepthList (genPhase pages items).root.children + 3)
      prev pages items = .ok (prev1, pages1)) :
    ∃ (prev2 : DomNode) (pages2 : List CanvasPage),
      patchOutlineEntry (τ := OriginViewInstruction) specEqualPatchElem
        specPatchAttributes specInterpretTargetView specChangeViewPerspective
        (2 * domDepthList (genPhase pages items).root.children + 3)
        prev1 pages1 items = .ok (prev2, pages2)
      ∧ prev2.children.length = prev1.children.length
      ∧ prev2.children.map (fun c => c.getAttr TypstPatchAttrs.Tid)
          = prev1.children.map (fun c => c.getAttr TypstPatchAttrs.Tid)
      ∧ pages2.map (fun pg => pg.inserter)
          = pages1.map (fun pg => pg.inserter) := by
  have hfr := patchOutlineEntry_first_render (τ := OriginViewInstruction)
    specEqualPatchElem specPatchAttributes specInterpretTargetView
    specChangeViewPerspective
    (2 * domDepthList (genPhase pages items).root.children + 3)
    prev pages items hprev
  rw [hfr] at h1
  have hpair : (prev.withChildren
        (prev.children ++ (genPhase pages items).root.children),
      (genPhase pages items).pages.map (fun page =>
        { page with
            inserter := some (page.inserter.getD .replaceStubToRealCanvas) }))
      = (prev1, pages1) := by
    injection h1
  obtain ⟨hX, hY⟩ := Prod.mk.injEq .. |>.mp hpair
  subst hX
  subst hY
  have hch : (prev.withChildren
      (prev.children ++ (genPhase pages items).root.children)).children
      = (genPhase pages items).root.children := by
    rw [DomNode.children_withChildren, hprev, List.nil_append]
  have hidx : ((genPhase pages items).pages.map (fun page =>
      { page with
          inserter := some (page.inserter.getD .replaceStubToRealCanvas) })).map
        (fun pg => pg.index)
      = pages.map (fun pg => pg.index) := by
    rw [map_arm_index]
    exact map_idx_of_core (genPhase_spec pages items).2.1
  have hrel := genPhase_rel hidx items
  have hroot2 : (genPhase ((genPhase pages items).pages.map (fun page =>
      { page with
          inserter := some (page.inserter.getD .replaceStubToRealCanvas) })) items).root
      = (genPhase pages items).root := hrel.root
  -- inserter bookkeeping shared by both cases
  have hins : ((genPhase ((genPhase pages items).pages.map (fun page =>
        { page with
            inserter := some (page.inserter.getD .replaceStubToRealCanvas) })) items).pages.map
      (fun page => { page with
          inserter := some (page.inserter.getD .replaceStubToRealCanvas) })).map
        (fun pg => pg.inserter)
      = (((genPhase pages items).pages.map (fun page =>
          { page with
              inserter := some (page.inserter.getD .replaceStubToRealCanvas) })).map
          (fun pg => pg.inserter)) := by
    rw [map_arm_inserter]
    rw [map_inserter_of_core (genPhase_spec ((genPhase pages items).pages.map
      (fun page => { page with
          inserter := some (page.inserter.getD .replaceStubToRealCanvas) })) items).2.1]
    rw [map_arm_inserter]
    exact map_some_getD_idem _
  by_cases hcs : (genPhase pages items).root.children = []
  · have hch2 : (prev.withChildren
        (prev.children ++ (genPhase pages items).root.children)).children
        = [] := by rw [hch, hcs]
    have hfr2 := patchOutlineEntry_first_render (τ := OriginViewInstruction)
      specEqualPatchElem specPatchAttributes specInterpretTargetView
      specChangeViewPerspective
      (2 * domDepthList (genPhase pages items).root.children + 3)
      (prev.withChildren
        (prev.children ++ (genPhase pages items).root.children))
      ((genPhase pages items).pages.map (fun page =>
        { page with
            inserter := some (page.inserter.getD .replaceStubToRealCanvas) }))
      items hch2
    refine ⟨_, _, hfr2, ?_, ?_, ?_⟩
    · rw [DomNode.children_withChildren, hch2,
        show (genPhase ((genPhase pages items).pages.map (fun page =>
          { page with
              inserter := some (page.inserter.getD .replaceStubToRealCanvas) }))
          items).root.children = [] by rw [hroot2]; exact hcs]
      rfl
    · rw [DomNode.children_withChildren, hch2,
        show (genPhase ((genPhase pages items).pages.map (fun page =>
          { page with
              inserter := some (page.inserter.getD .replaceStubToRealCanvas) }))
          items).root.children = [] by rw [hroot2]; exact hcs]
      rfl
    · exact hins
  · have hne : (prev.withChildren
        (prev.children ++ (genPhase pages items).root.children)).children
        ≠ [] := by rw [hch]; exact hcs
    have hpt : ∀ c ∈ (genPhase pages items).root.children,
        ∀ (pgs : List CanvasPage),
        reuseOrPatchOutlineElem specEqualPatchElem specPatchAttributes
          specInterpretTargetView specChangeViewPerspective
          (2 * domDepthList (genPhase pages items).root.children + 2) pgs c c
          = .ok (pgs, selfPatched c,
              (c.getAttr TypstPatchAttrs.BadEquality).isNone) := by
      intro c hc pgs
      refine reuseOrPatch_self_mutual.2 _ c hc _ pgs
        (nodesAllList_mem (genPhase_spec pages items).1.nopage c hc) ?_
      have := domDepth_mem c hc
      omega
    have hdiag : patchOutlineChildren specEqualPatchElem specPatchAttributes
        specInterpretTargetView specChangeViewPerspective
        (2 * domDepthList (genPhase pages items).root.children + 3)
        (genPhase ((genPhase pages items).pages.map (fun page =>
          { page with
              inserter := some (page.inserter.getD .replaceStubToRealCanvas) }))
          items).pages
        (genPhase pages items).root.children
        (genPhase pages items).root.children
        = .ok ((genPhase ((genPhase pages items).pages.map (fun page =>
            { page with
                inserter := some (page.inserter.getD .replaceStubToRealCanvas) }))
            items).pages,
          ((genPhase pages items).root.children).map selfPatched) :=
      patchChildren_diag
        (2 * domDepthList (genPhase pages items).root.children + 2)
        (genPhase pages items).root.children _ hpt
    have hcall : patchOutlineEntry (τ := OriginViewInstruction)
        specEqualPatchElem specPatchAttributes specInterpretTargetView
        specChangeViewPerspective
        (2 * domDepthList (genPhase pages items).root.children + 3)
        (prev.withChildren
          (prev.children ++ (genPhase pages items).root.children))
        ((genPhase pages items).pages.map (fun page =>
          { page with
              inserter := some (page.inserter.getD .replaceStubToRealCanvas) }))
        items
        = .ok ((prev.withChildren
            (prev.children ++ (genPhase pages items).root.children)).withChildren
              (((genPhase pages items).root.children).map selfPatched),
          (genPhase ((genPhase pages items).pages.map (fun page =>
            { page with
                inserter := some (page.inserter.getD .replaceStubToRealCanvas) }))
            items).pages.map (fun page =>
              { page with
                  inserter := some (page.inserter.getD .replaceStubToRealCanvas) })) := by
      rw [patchOutlineEntry, if_neg hne]
      rw [hch, show (genPhase ((genPhase pages items).pages.map (fun page =>
        { page with
            inserter := some (page.inserter.getD .replaceStubToRealCanvas) }))
        items).root.children = (genPhase pages items).root.children
        from congrArg DomNode.children hroot2]
      rw [hdiag, except_bind_ok]
      rfl
    refine ⟨_, _, hcall, ?_, ?_, ?_⟩
    · rw [DomNode.children_withChildren, hch, List.length_map]
    · rw [DomNode.children_withChildren, hch, map_tid_selfPatched]
    · exact hins

theorem c5_witness :
    ((DomNode.createElement "div").children = []
      ∧ patchOutlineEntry (τ := OriginViewInstruction) specEqualPatchElem
          specPatchAttributes specInterpretTargetView specChangeViewPerspective
          (2 * domDepthList (genPhase ([] : List CanvasPage)
            ([] : List OutlineItemData)).root.children + 3)
          (DomNode.createElement "div") [] []
        = .ok ((DomNode.createElement "div").withChildren
            ((DomNode.createElement "div").children
              ++ (genPhase ([] : List CanvasPage)
                ([] : List OutlineItemData)).root.children),
          (genPhase ([] : List CanvasPage)
            ([] : List OutlineItemData)).pages.map (fun page =>
            { page with
              inserter := some
                (page.inserter.getD .replaceStubToRealCanvas) })))
    ∧ (∃ (prev2 : DomNode) (pages2 : List CanvasPage),
        patchOutlineEntry (τ := OriginViewInstruction) specEqualPatchElem
          specPatchAttributes specInterpretTargetView specChangeViewPerspective
          (2 * domDepthList (genPhase ([] : List CanvasPage)
            ([] : List OutlineItemData)).root.children + 3)
          ((DomNode.createElement "div").withChildren
            ((DomNode.createElement "div").children
              ++ (genPhase ([] : List CanvasPage)
                ([] : List OutlineItemData)).root.children))
          ((genPhase ([] : List CanvasPage)
            ([] : List OutlineItemData)).pages.map (fun page =>
            { page with
              inserter := some
                (page.inserter.getD .replaceStubToRealCanvas) })) []
          = .ok (prev2, pages2)
        ∧ prev2.children.length
            = ((DomNode.createElement "div").withChildren
              ((DomNode.createElement "div").children
                ++ (genPhase ([] : List CanvasPage)
                  ([] : List OutlineItemData)).root.children)).children.length
        ∧ prev2.children.map (fun c => c.getAttr TypstPatchAttrs.Tid)
            = ((DomNode.createElement "div").withChildren
              ((DomNode.createElement "div").children
                ++ (genPhase ([] : List CanvasPage)
                  ([] : List OutlineItemData)).root.children)).children.map
                (fun c => c.getAttr TypstPatchAttrs.Tid)
        ∧ pages2.map (fun pg => pg.inserter)
            = ((genPhase ([] : List CanvasPage)
              ([] : List OutlineItemData)).pages.map (fun page =>
              { page with
                inserter := some
                  (page.inserter.getD .replaceStubToRealCanvas) })).map
              (fun pg => pg.inserter)) :=
  ⟨⟨rfl, patchOutlineEntry_first_render specEqualPatchElem
      specPatchAttributes specInterpretTargetView specChangeViewPerspective
      _ (DomNode.createElement "div") [] [] rfl⟩,
   c5_first_render_idempotent [] [] (DomNode.createElement "div") _ _ rfl
     (patchOutlineEntry_first_render specEqualPatchElem specPatchAttributes
       specInterpretTargetView specChangeViewPerspective _
       (DomNode.createElement "div") [] [] rfl)⟩
